import Mathlib

/-!
Shallow embedding of the mode-negotiation engine of libdlo (`src/dlo_mode.c`,
`src/dlo_structs.h`).  Machine integers are modelled as `Nat`, with an explicit
`% 2^w` wherever the source's fixed-width arithmetic can overflow.  Fallible
operations return a `Retcode` paired with the updated state.  Code that lives
outside the two source files (the USB transport of `dlo_usb.c`, and the
constants of `dlo_defs.h` / `dlo_mode.h` / `dlo_data.h`) is modelled from the
spec, with a doc comment saying so at each such definition.
-/

/-- Result codes surfaced by the engine (spec section 6 lists `OK`,
`WARN_DL160_MODE`, `BAD_MODE`, `BUF_FULL`, `EDID_FAIL`, `INVALID_MODE`; the
enum itself lives in `libdlo.h`, which is not under `src/`).  The
`invalid_mode` case models the documented quirk of `mode_select` returning the
mode-index sentinel `DLO_INVALID_MODE` as an error code.  `err_usb` models a
transport failure propagated verbatim from the opaque USB sink
(`dlo_usb.c`, not under `src/`). -/
inductive Retcode where
  | ok
  | warn_dl160_mode
  | err_bad_mode
  | err_buf_full
  | err_edid_fail
  | invalid_mode
  | err_usb
deriving DecidableEq, Repr

/-- Size of the mode catalogue.  The constant `DLO_MODE_DATA_NUM` is defined in
`dlo_data.h` (not under `src/`); its value is fixed by `dlo_mode_init` in
`src/dlo_mode.c`, which initialises exactly the 35 entries `0..34`. -/
def DLO_MODE_DATA_NUM : Nat := 35

/-- Modelled from the spec: `DLO_INVALID_MODE` is defined in `dlo_mode.h`
(not under `src/`); the spec says it is "a reserved sentinel distinct from
every valid index".  `dlo_modenum_t` is `uint32_t` (`src/dlo_structs.h`), so we
use the all-ones 32-bit value. -/
def DLO_INVALID_MODE : Nat := 4294967295

/-- Modelled from the spec: `DLO_DL120_MODES` is defined outside `src/`; the
spec says only that the first `DLO_DL120_MODES` catalogue indices designate a
subset handled specially (a warning is returned for them).  No claim depends
on its numeric value; 20 is a placeholder and every theorem below refers to
the symbol, not the number. -/
def DLO_DL120_MODES : Nat := 20

/-- Modelled from the spec: `BYTES_PER_16BPP` is defined in `dlo_defs.h` (not
under `src/`); spec sections 4.5 and 8 fix `base8 = base + 2 * width * height`,
so the constant is 2. -/
def BYTES_PER_16BPP : Nat := 2

/-- One past the largest `uint32_t` value (`dlo_ptr_t` and `dlo_modenum_t` are
32-bit). -/
def U32 : Nat := 4294967296

/-- One catalogue entry (`dlo_mode_data_t` in `src/dlo_mode.c`).  The opaque
mode-program and mode-enable blobs and their sizes are not modelled: the spec
treats their byte contents as opaque, and no claim inspects them. -/
structure ModeData where
  width : Nat
  height : Nat
  refresh : Nat
  bpp : Nat
  low_blank : Bool
deriving DecidableEq, Repr

/-- The hard-wired mode catalogue, exactly as `dlo_mode_init` fills
`dlo_mode_data[0..34]` (all entries 24 bpp, `low_blank = false`). -/
def dlo_mode_data : List ModeData :=
  [ ⟨1920, 1080, 60, 24, false⟩,
    ⟨1600, 1200, 60, 24, false⟩,
    ⟨1400, 1050, 85, 24, false⟩,
    ⟨1400, 1050, 75, 24, false⟩,
    ⟨1400, 1050, 60, 24, false⟩,
    ⟨1400, 1050, 60, 24, false⟩,
    ⟨1366, 768, 60, 24, false⟩,
    ⟨1360, 768, 60, 24, false⟩,
    ⟨1280, 960, 85, 24, false⟩,
    ⟨1280, 960, 60, 24, false⟩,
    ⟨1280, 800, 60, 24, false⟩,
    ⟨1280, 768, 85, 24, false⟩,
    ⟨1280, 768, 75, 24, false⟩,
    ⟨1280, 1024, 85, 24, false⟩,
    ⟨1280, 1024, 75, 24, false⟩,
    ⟨1280, 1024, 60, 24, false⟩,
    ⟨1280, 768, 60, 24, false⟩,
    ⟨1152, 864, 75, 24, false⟩,
    ⟨1024, 768, 85, 24, false⟩,
    ⟨1024, 768, 75, 24, false⟩,
    ⟨1024, 768, 70, 24, false⟩,
    ⟨1024, 768, 60, 24, false⟩,
    ⟨848, 480, 60, 24, false⟩,
    ⟨800, 600, 85, 24, false⟩,
    ⟨800, 600, 75, 24, false⟩,
    ⟨800, 600, 72, 24, false⟩,
    ⟨800, 600, 60, 24, false⟩,
    ⟨800, 600, 56, 24, false⟩,
    ⟨800, 480, 60, 24, false⟩,
    ⟨720, 400, 85, 24, false⟩,
    ⟨720, 400, 70, 24, false⟩,
    ⟨640, 480, 85, 24, false⟩,
    ⟨640, 480, 75, 24, false⟩,
    ⟨640, 480, 73, 24, false⟩,
    ⟨640, 480, 60, 24, false⟩ ]

/-- Read of `dlo_mode_data[num]`.  The C array access is only well defined for
`num < DLO_MODE_DATA_NUM`; out-of-range indices are totalised to an all-zero
entry (which in particular has `bpp = 0`, so it can never match a 24 bpp
request). -/
def catEntry (num : Nat) : ModeData :=
  dlo_mode_data.getD num ⟨0, 0, 0, 0, false⟩

/-- Established-timing table row (`est_timing_t`). -/
structure EstTiming where
  width : Nat
  height : Nat
  refresh : Nat
deriving DecidableEq, Repr

/-- The `est_timings[24]` table of `src/dlo_mode.c` (one row per bit of the
EDID established-timings field, bit 0 first). -/
def est_timings : List EstTiming :=
  [ ⟨800, 600, 60⟩,
    ⟨800, 600, 56⟩,
    ⟨640, 480, 75⟩,
    ⟨640, 480, 72⟩,
    ⟨640, 480, 67⟩,
    ⟨640, 480, 60⟩,
    ⟨720, 400, 88⟩,
    ⟨720, 400, 70⟩,
    ⟨1280, 1024, 75⟩,
    ⟨1024, 768, 75⟩,
    ⟨1024, 768, 70⟩,
    ⟨1024, 768, 60⟩,
    ⟨1024, 768, 87⟩,
    ⟨832, 624, 75⟩,
    ⟨800, 600, 75⟩,
    ⟨800, 600, 72⟩,
    ⟨0, 0, 0⟩,
    ⟨0, 0, 0⟩,
    ⟨0, 0, 0⟩,
    ⟨0, 0, 0⟩,
    ⟨0, 0, 0⟩,
    ⟨0, 0, 0⟩,
    ⟨0, 0, 0⟩,
    ⟨1152, 870, 75⟩ ]

/-- A viewport (`dlo_view_t`: `width`, `height`, `bpp`, `base`; the type lives
in `libdlo.h`, its shape is fixed by the uses in `src/dlo_mode.c` and by spec
section 3). -/
structure DloView where
  width : Nat
  height : Nat
  bpp : Nat
  base : Nat
deriving DecidableEq, Repr

/-- A mode record (`dlo_mode_t`: a view plus a refresh rate). -/
structure DloMode where
  view : DloView
  refresh : Nat
deriving DecidableEq, Repr

/-- The all-zero mode record (also the result of the `memset` that clears
`dev->native`). -/
def modeZero : DloMode := ⟨⟨0, 0, 0, 0⟩, 0⟩

/-- Per-device state (`dlo_device_s` in `src/dlo_structs.h`), restricted to
the fields the mode engine touches.  The command buffer's three cursors
`buffer`/`bufptr`/`bufend` are modelled by the staged bytes `buf` (the region
`[buffer, bufptr)`) plus the total capacity `bufCap` (`bufend - buffer`), so
`bufptr - buffer = buf.length` and `bufend - bufptr = bufCap - buf.length`.
List linkage, serial, claim flag, timeout, memory size and the USB handle are
not modelled (no claim touches them).  `supported` is the
`dlo_modenum_t supported[DLO_MODE_DATA_NUM]` array; its length is 35 in every
reachable state, which theorems carry as a hypothesis where needed. -/
structure Device where
  bufCap : Nat
  buf : List Nat
  mode : DloMode
  base8 : Nat
  low_blank : Bool
  native : DloMode
  supported : List Nat
deriving DecidableEq, Repr

/-- Loop body of `get_mode_number`: walk the (at most `DLO_MODE_DATA_NUM`
entries of the) supported-modes array, stop at the first `DLO_INVALID_MODE`,
skip entries whose catalogue row fails one of the four tests, return the
first surviving mode number. -/
def gmnList (width height refresh bpp : Nat) : List Nat → Nat
  | [] => DLO_INVALID_MODE
  | num :: rest =>
    if num = DLO_INVALID_MODE then DLO_INVALID_MODE
    else if (catEntry num).width ≠ width then gmnList width height refresh bpp rest
    else if bpp ≠ 0 ∧ (catEntry num).bpp ≠ bpp then gmnList width height refresh bpp rest
    else if height ≠ 0 ∧ (catEntry num).height ≠ height then gmnList width height refresh bpp rest
    else if refresh ≠ 0 ∧ (catEntry num).refresh ≠ refresh then gmnList width height refresh bpp rest
    else num

/-- `get_mode_number` of `src/dlo_mode.c`: the `for (idx = 0; idx <
DLO_MODE_DATA_NUM; idx++)` loop over `dev->supported`. -/
def get_mode_number (dev : Device) (width height refresh bpp : Nat) : Nat :=
  gmnList width height refresh bpp (dev.supported.take DLO_MODE_DATA_NUM)

/-- `dlo_mode_lookup`: reject any request whose colour depth is not 24 bpp,
otherwise delegate to `get_mode_number`. -/
def dlo_mode_lookup (dev : Device) (width height refresh bpp : Nat) : Nat :=
  if bpp ≠ 24 then DLO_INVALID_MODE else get_mode_number dev width height refresh bpp

/-- `dlo_mode_from_number`: `NULL` (here `none`) for out-of-range numbers,
otherwise a mode record copied from the catalogue entry with `base = 0`.
(The source returns a pointer to a static scratch record; spec section 9
already rationalises this to a by-value return, which `Option` models.) -/
def dlo_mode_from_number (num : Nat) : Option DloMode :=
  if num < DLO_MODE_DATA_NUM then
    some { view := { width := (catEntry num).width, height := (catEntry num).height,
                     bpp := (catEntry num).bpp, base := 0 },
           refresh := (catEntry num).refresh }
  else none

/-- `use_default_modes`: `dev->supported[i] = i` for every catalogue index. -/
def use_default_modes (dev : Device) : Device :=
  { dev with supported := List.range DLO_MODE_DATA_NUM }

/-- Matching relation of claim C2, written exactly in the claim's words: a
candidate index `n` matches iff `catalogue[n].width == w` AND (`bpp == 0` OR
`catalogue[n].bpp == bpp`) AND (`h == 0` OR `catalogue[n].height == h`) AND
(`refresh == 0` OR `catalogue[n].refresh == refresh`). -/
def claim_mode_matches (n width height refresh bpp : Nat) : Bool :=
  decide ((catEntry n).width = width) &&
  (decide (bpp = 0) || decide ((catEntry n).bpp = bpp)) &&
  (decide (height = 0) || decide ((catEntry n).height = height)) &&
  (decide (refresh = 0) || decide ((catEntry n).refresh = refresh))

/-- Walk of claim C2, written in the claim's words: walk `dev.supported` in
order, stop at the first `INVALID_MODE` sentinel (or after
`DLO_MODE_DATA_NUM` entries), and return the first entry that matches. -/
def claim_lookup_walk (supported : List Nat) (width height refresh bpp : Nat) : Option Nat :=
  ((supported.take DLO_MODE_DATA_NUM).takeWhile (fun n => n ≠ DLO_INVALID_MODE)).find?
    (fun n => claim_mode_matches n width height refresh bpp)

/-- Begin-video-register-block command (`WRITE_VIDREG_LOCK`, the 4 wire bytes
`AF 20 FF 00` per spec section 6; the byte count passed by `set_base` comes
from `DSIZEOF` in the missing `dlo_defs.h` and is modelled from the spec's
wire grammar). -/
def WRITE_VIDREG_LOCK : List Nat := [0xAF, 0x20, 0xFF, 0x00]

/-- End-video-register-block command (`WRITE_VIDREG_UNLOCK`, the 6 wire bytes
`AF 20 FF FF AF A0`). -/
def WRITE_VIDREG_UNLOCK : List Nat := [0xAF, 0x20, 0xFF, 0xFF, 0xAF, 0xA0]

/-- `vreg`: stage the four-byte register write `AF 20 reg val`.  Fails with
`BUF_FULL` when fewer than 4 bytes are free.  The `reg` and `val` parameters
are `uint8_t` in the source, hence the `% 256` (the conversion performed at
the call). -/
def vreg (dev : Device) (reg val : Nat) : Retcode × Device :=
  if dev.bufCap - dev.buf.length < 4 then (.err_buf_full, dev)
  else (.ok, { dev with buf := dev.buf ++ [0xAF, 0x20, reg % 256, val % 256] })

/-- `vbuf`: stage `len` bytes.  Fails with `BUF_FULL` when `bufend - bufptr <
len`; otherwise the byte-copy loop appends the whole block. -/
def vbuf (dev : Device) (b : List Nat) : Retcode × Device :=
  if dev.bufCap - dev.buf.length < b.length then (.err_buf_full, dev)
  else (.ok, { dev with buf := dev.buf ++ b })

/-- Modelled from the spec: outcome oracle for the opaque USB transport
(`dlo_usb.c` is not under `src/`).  Each transport call consumes one entry;
`true` (and an exhausted oracle) means the call succeeds. -/
def usb_call (t : List Bool) : Bool × List Bool :=
  match t with
  | [] => (true, [])
  | b :: rest => (b, rest)

/-- Modelled from the spec: `dlo_usb_write` flushes the pending command
buffer.  Spec section 5: after a successful flush every staged byte is
delivered, and on failure "the command buffer cursor is reset to `base`
(discarding pending bytes)" — so the staged region is empty either way. -/
def dlo_usb_write (t : List Bool) (dev : Device) : Retcode × List Bool × Device :=
  let c := usb_call t
  if c.1 then (.ok, c.2, { dev with buf := [] })
  else (.err_usb, c.2, { dev with buf := [] })

/-- Modelled from the spec: `dlo_usb_chan_sel` sends an opaque blob on the
control channel.  Only its success or failure is visible to the mode engine;
it does not touch the staged command buffer. -/
def dlo_usb_chan_sel (t : List Bool) (dev : Device) : Retcode × List Bool × Device :=
  let c := usb_call t
  if c.1 then (.ok, c.2, dev) else (.err_usb, c.2, dev)

/-- Modelled from the spec: `dlo_usb_write_buf` bulk-writes an opaque blob
(the catalogue entry's mode-program bytes) directly to the transport. -/
def dlo_usb_write_buf (t : List Bool) (dev : Device) : Retcode × List Bool × Device :=
  let c := usb_call t
  if c.1 then (.ok, c.2, dev) else (.err_usb, c.2, dev)

/-- `set_base`: stage `VIDREG_LOCK`, the six register writes `0x20,0x21,0x22`
= bytes 2,1,0 of `base` and `0x26,0x27,0x28` = bytes 2,1,0 of `base8`, then
`VIDREG_UNLOCK`, and flush.  Each `ERR(...)` in the source short-circuits on
the first non-OK result. -/
def set_base (t : List Bool) (dev : Device) (base base8 : Nat) : Retcode × List Bool × Device :=
  let a := vbuf dev WRITE_VIDREG_LOCK
  if a.1 ≠ .ok then (a.1, t, a.2) else
  let b := vreg a.2 0x20 (base >>> 16)
  if b.1 ≠ .ok then (b.1, t, b.2) else
  let c := vreg b.2 0x21 (base >>> 8)
  if c.1 ≠ .ok then (c.1, t, c.2) else
  let d := vreg c.2 0x22 base
  if d.1 ≠ .ok then (d.1, t, d.2) else
  let e := vreg d.2 0x26 (base8 >>> 16)
  if e.1 ≠ .ok then (e.1, t, e.2) else
  let f := vreg e.2 0x27 (base8 >>> 8)
  if f.1 ≠ .ok then (f.1, t, f.2) else
  let g := vreg f.2 0x28 base8
  if g.1 ≠ .ok then (g.1, t, g.2) else
  let k := vbuf g.2 WRITE_VIDREG_UNLOCK
  if k.1 ≠ .ok then (k.1, t, k.2) else
  let w := dlo_usb_write t k.2
  if w.1 ≠ .ok then w else (.ok, w.2.1, w.2.2)

/-- Steps 7 and 8 of `mode_select` (`src/dlo_mode.c`, the code after the
optional mode-program sequence): update `dev->mode` from the desired record,
override its refresh and the `low_blank` flag from catalogue entry `mode`,
flush, and return the DL160 warning for modes below `DLO_DL120_MODES`. -/
def mode_select_finish (t : List Bool) (dev : Device) (desc : DloMode) (mode : Nat) :
    Retcode × List Bool × Device :=
  let dev4 := { dev with
                mode := { desc with refresh := (catEntry mode).refresh },
                low_blank := (catEntry mode).low_blank }
  let r5 := dlo_usb_write t dev4
  if r5.1 ≠ .ok then r5
  else (if mode < DLO_DL120_MODES then .warn_dl160_mode else .ok, r5.2.1, r5.2.2)

/-- Step 6 of `mode_select`: when the desired raster's width, height or bpp
differs from the current mode (the reduced-blanking flag is deliberately not
compared), issue the mode-program sequence — channel select with the entry's
enable blob, bulk write of the program blob, channel select with the
postamble — each `ERR(...)` short-circuiting, before the final update. -/
def mode_select_progseq (t : List Bool) (dev : Device) (desc : DloMode) (mode : Nat) :
    Retcode × List Bool × Device :=
  if desc.view.width ≠ dev.mode.view.width ∨ desc.view.height ≠ dev.mode.view.height ∨
     desc.view.bpp ≠ dev.mode.view.bpp then
    let ra := dlo_usb_chan_sel t dev
    if ra.1 ≠ .ok then ra
    else
      let rb := dlo_usb_write_buf ra.2.1 ra.2.2
      if rb.1 ≠ .ok then rb
      else
        let rc := dlo_usb_chan_sel rb.2.1 rb.2.2
        if rc.1 ≠ .ok then rc
        else mode_select_finish rc.2.1 rc.2.2 desc mode
  else mode_select_finish t dev desc mode

/-- `mode_select` of `src/dlo_mode.c` (steps 1-5; steps 6-8 are
`mode_select_progseq` / `mode_select_finish` above, split out of the one C
function only to keep each stage a separate definition).  Note the documented
quirk: when the initial flush fails the function returns `DLO_INVALID_MODE`
(a mode-index sentinel) as its error code.  `dev->base8` is a `uint32_t`
(`dlo_ptr_t`), hence the `% U32` on the computed byte offset. -/
def mode_select (t : List Bool) (dev : Device) (desc : DloMode) (mode : Nat) :
    Retcode × List Bool × Device :=
  if DLO_MODE_DATA_NUM ≤ mode ∨ mode = DLO_INVALID_MODE then (.err_bad_mode, t, dev)
  else if desc.view.base % 2 = 1 then (.err_bad_mode, t, dev)
  else
    let r1 := dlo_usb_write t dev
    if r1.1 ≠ .ok then (.invalid_mode, r1.2.1, r1.2.2)
    else
      let dev2 := { r1.2.2 with
                    mode := { r1.2.2.mode with
                              view := { r1.2.2.mode.view with base := desc.view.base } },
                    base8 := (desc.view.base +
                              BYTES_PER_16BPP * desc.view.width * desc.view.height) % U32 }
      let r2 := set_base r1.2.1 dev2 dev2.mode.view.base dev2.base8
      if r2.1 ≠ .ok then r2
      else mode_select_progseq r2.2.1 r2.2.2 desc mode

/-- `dlo_mode_change`: if no mode number was supplied, try looking one up for
the supplied raster description (with "don't care" refresh), then delegate to
`mode_select`. -/
def dlo_mode_change (t : List Bool) (dev : Device) (desc : DloMode) (mode : Nat) :
    Retcode × List Bool × Device :=
  let m := if mode = DLO_INVALID_MODE then
             get_mode_number dev desc.view.width desc.view.height 0 desc.view.bpp
           else mode
  mode_select t dev desc m

/-- Read a byte of the EDID block (`RD_B(ptr + i)`). -/
def byteAt (bytes : List Nat) (i : Nat) : Nat := bytes.getD i 0

/-- Read a 16-bit little-endian value (`LETOHS(RD_S(ptr + i))`; the host-order
conversion of `src/dlo_mode.c` makes the result `b0 + 256*b1` on every host,
matching spec section 4.1's `read_u16_le`). -/
def readLE16 (bytes : List Nat) (i : Nat) : Nat :=
  byteAt bytes i + 256 * byteAt bytes (i + 1)

/-- Read a 32-bit little-endian value (`LETOHL(RD_L(ptr + i))`). -/
def readLE32 (bytes : List Nat) (i : Nat) : Nat :=
  byteAt bytes i + 256 * byteAt bytes (i + 1) + 65536 * byteAt bytes (i + 2) +
    16777216 * byteAt bytes (i + 3)

/-- The fixed EDID header `{00 FF FF FF FF FF FF 00}` (`header[8]` in
`src/dlo_mode.c`). -/
def edid_header : List Nat := [0x00, 0xFF, 0xFF, 0xFF, 0xFF, 0xFF, 0xFF, 0x00]

/-- `bad_edid_checksum`: sum the bytes into a `uint8_t` accumulator (addition
mod 256) and report `true` when the result is non-zero. -/
def bad_edid_checksum (bytes : List Nat) : Bool :=
  (bytes.foldl (fun c b => (c + b) % 256) 0) != 0

/-- Vendor/product block (`edid_prod_id_t`). -/
structure EdidProdId where
  manuf_name : Nat
  prod_code : Nat
  serial_num : Nat
  manuf_wk : Nat
  manuf_yr : Nat
deriving DecidableEq, Repr

/-- EDID structure version (`edid_struct_vsn_t`). -/
structure EdidStructVsn where
  number : Nat
  revision : Nat
deriving DecidableEq, Repr

/-- Basic display parameters (`edid_basic_params_t`).  The source stores
`gamma = (100.0 + byte[0x17]) / 100.0` as a `float`; floating point is not
modelled, so the raw byte is kept (no claim reads it). -/
structure EdidBasicParams where
  input_def : Nat
  max_horiz_sz : Nat
  max_vert_sz : Nat
  gamma_raw : Nat
  features : Nat
deriving DecidableEq, Repr

/-- Colour characteristics (`edid_colours_t`); all fields are `uint16_t`. -/
structure EdidColours where
  red_grn_low : Nat
  blu_wht_low : Nat
  red_x : Nat
  red_y : Nat
  grn_x : Nat
  grn_y : Nat
  blu_x : Nat
  blu_y : Nat
  wht_x : Nat
  wht_y : Nat
deriving DecidableEq, Repr

/-- `parse_edid_colours` of `src/dlo_mode.c`, byte for byte.  `p` is the raw
EDID byte reader and `base` the pointer argument (the caller passes
`ptr + 0x19`); the function then reads `RD_B(ptr + 0x19) .. RD_B(ptr + 0x22)`
*relative to that already-offset pointer*, so the bytes actually consumed sit
at `0x32..0x3B` of the EDID block.  The expansion step reproduces the source
exactly: `blu_y` masks with `0x40`, and `wht_x` is built from the (still raw)
`wht_y` byte, not from the `wht_x` byte.  Stores are to `uint16_t` fields,
hence `% 65536`. -/
def parse_edid_colours (p : Nat → Nat) (base : Nat) : EdidColours :=
  let red_grn_low := p (base + 0x19)
  let blu_wht_low := p (base + 0x1A)
  let red_x0 := p (base + 0x1B)
  let red_y0 := p (base + 0x1C)
  let grn_x0 := p (base + 0x1D)
  let grn_y0 := p (base + 0x1E)
  let blu_x0 := p (base + 0x1F)
  let blu_y0 := p (base + 0x20)
  let wht_x0 := p (base + 0x21)
  let wht_y0 := p (base + 0x22)
  { red_grn_low := red_grn_low,
    blu_wht_low := blu_wht_low,
    red_x := (((red_grn_low &&& 0xC0) >>> 6) + (red_x0 <<< 2)) % 65536,
    red_y := (((red_grn_low &&& 0x30) >>> 4) + (red_y0 <<< 2)) % 65536,
    grn_x := (((red_grn_low &&& 0x0C) >>> 2) + (grn_x0 <<< 2)) % 65536,
    grn_y := (((red_grn_low &&& 0x03) >>> 0) + (grn_y0 <<< 2)) % 65536,
    blu_x := (((blu_wht_low &&& 0xC0) >>> 6) + (blu_x0 <<< 2)) % 65536,
    blu_y := (((blu_wht_low &&& 0x40) >>> 4) + (blu_y0 <<< 2)) % 65536,
    wht_x := (((blu_wht_low &&& 0x0C) >>> 2) + (wht_y0 <<< 2)) % 65536,
    wht_y := (((blu_wht_low &&& 0x03) >>> 0) + (wht_y0 <<< 2)) % 65536 }

/-- Numeric fields of a detailed timing descriptor (`edid_detail_t`).  The
source's `pixclk` is a `float` (`LETOHS(RD_S(ptr)) / 100.0`); the raw 16-bit
value is kept instead (no claim reads it). -/
structure EdidDetail where
  pixclk_raw : Nat
  hactl : Nat
  hblankl : Nat
  hactblankh : Nat
  vactl : Nat
  vblankl : Nat
  vactblankh : Nat
  hsyncoffl : Nat
  hsyncwl : Nat
  vsyncoffvsyncwl : Nat
  synch : Nat
  hsizel : Nat
  vsizel : Nat
  hvsizeh : Nat
  hbord : Nat
  vbord : Nat
  flags : Nat
deriving DecidableEq, Repr

/-- A timing description block (`edid_timing_desc_t`): either a detailed
timing descriptor (`is_detail = true`) or a monitor descriptor
(`is_detail = false`; its 18 opaque payload bytes are only fed to debug
output in the source and are not modelled). -/
inductive EdidTimingDesc where
  | detail (d : EdidDetail)
  | monitor
deriving DecidableEq, Repr

/-- Whether a descriptor is a detailed timing descriptor (the `is_detail`
flag of the source union). -/
def EdidTimingDesc.is_detail : EdidTimingDesc → Bool
  | .detail _ => true
  | .monitor => false

/-- `parse_edid_detail_desc`: a descriptor whose first three bytes are not all
zero is a detailed timing descriptor; otherwise a monitor descriptor. -/
def parse_edid_detail_desc (p : Nat → Nat) (base : Nat) : EdidTimingDesc :=
  if p base ≠ 0 ∨ p (base + 1) ≠ 0 ∨ p (base + 2) ≠ 0 then
    .detail { pixclk_raw := p base + 256 * p (base + 1),
              hactl := p (base + 0x02),
              hblankl := p (base + 0x03),
              hactblankh := p (base + 0x04),
              vactl := p (base + 0x05),
              vblankl := p (base + 0x06),
              vactblankh := p (base + 0x07),
              hsyncoffl := p (base + 0x08),
              hsyncwl := p (base + 0x09),
              vsyncoffvsyncwl := p (base + 0x0A),
              synch := p (base + 0x0B),
              hsizel := p (base + 0x0C),
              vsizel := p (base + 0x0D),
              hvsizeh := p (base + 0x0E),
              hbord := p (base + 0x0F),
              vbord := p (base + 0x10),
              flags := p (base + 0x11) }
  else .monitor

/-- Established-timing bytes as stored in `edid_est_timings_t`
(`timings[0]`, `timings[1]`, `resvd`). -/
structure EdidEstTimings where
  timings0 : Nat
  timings1 : Nat
  resvd : Nat
deriving DecidableEq, Repr

/-- A parsed EDID block (`edid_format_t`).  `std_timing_bytes` holds the 16
raw bytes `0x26..0x35`: the source's loop bound is
`sizeof(edid.std_timings.timing_id)` — 16 *bytes*, although the array has 8
`uint16_t` slots, so the C loop writes past the array into the descriptor
area, which the descriptor parse then overwrites; no claim touches the
standard timings, so only the bytes read are recorded.  `timings` has exactly
4 entries for every record the parser builds. -/
structure EdidFormat where
  product : EdidProdId
  version : EdidStructVsn
  basic : EdidBasicParams
  colours : EdidColours
  est_timings : EdidEstTimings
  std_timing_bytes : List Nat
  timings : List EdidTimingDesc
  ext_blocks : Nat
deriving DecidableEq, Repr

/-- Field extraction of `dlo_mode_parse_edid` (the part after the header and
checksum tests), at the fixed offsets of the source. -/
def parseEdidRecord (bytes : List Nat) : EdidFormat :=
  { product := { manuf_name := readLE16 bytes 0x08,
                 prod_code := readLE16 bytes 0x0A,
                 serial_num := readLE32 bytes 0x0C,
                 manuf_wk := byteAt bytes 0x10,
                 manuf_yr := byteAt bytes 0x11 },
    version := { number := byteAt bytes 0x12, revision := byteAt bytes 0x13 },
    basic := { input_def := byteAt bytes 0x14,
               max_horiz_sz := byteAt bytes 0x15,
               max_vert_sz := byteAt bytes 0x16,
               gamma_raw := byteAt bytes 0x17,
               features := byteAt bytes 0x18 },
    colours := parse_edid_colours (byteAt bytes) 0x19,
    est_timings := { timings0 := byteAt bytes 0x23,
                     timings1 := byteAt bytes 0x24,
                     resvd := byteAt bytes 0x25 },
    std_timing_bytes := (List.range 16).map (fun i => byteAt bytes (0x26 + i)),
    timings := (List.range 4).map (fun i => parse_edid_detail_desc (byteAt bytes) (0x36 + i * 0x12)),
    ext_blocks := byteAt bytes 0x7E }

/-- `add_supported`: look the mode up (always with `bpp = 24`) and, when
found, store its number at `supported[idx]` and increment the index. -/
def add_supported (dev : Device) (idx : Nat) (width height refresh : Nat) : Device × Nat :=
  let num := get_mode_number dev width height refresh 24
  if num ≠ DLO_INVALID_MODE then
    ({ dev with supported := dev.supported.set idx num }, idx + 1)
  else (dev, idx)

/-- One iteration of the established-timings loop of `lookup_edid_modes`:
the source tests only `est_timings[bit].width` — the 24-bit field assembled
from the EDID bytes is computed into the local `timings` but never consulted,
so the EDID's established-timing bits do not influence this walk. -/
def estStep (s : Device × Nat) (t : EstTiming) : Device × Nat :=
  if t.width ≠ 0 then add_supported s.1 s.2 t.width t.height t.refresh else s

/-- The mode record `lookup_edid_modes` stores into `dev->native` when
catalogue entry `num` is hit (`base = 0`, the rest copied from the entry). -/
def modeParams (num : Nat) : DloMode :=
  { view := { width := (catEntry num).width, height := (catEntry num).height,
              bpp := (catEntry num).bpp, base := 0 },
    refresh := (catEntry num).refresh }

/-- One iteration of the `for (hz = 50; hz < 100; hz++)` loop of
`lookup_edid_modes`: try to add `(width, height, hz)`; when the index moved,
the mode number just stored at the previous index becomes the native mode. -/
def detailHzStep (width height : Nat) (s : Device × Nat) (hz : Nat) : Device × Nat :=
  let prev := s.2
  let s1 := add_supported s.1 s.2 width height hz
  if s1.2 ≠ prev then
    ({ s1.1 with native := modeParams (s1.1.supported.getD prev 0) }, s1.2)
  else s1

/-- One iteration of the descriptor loop of `lookup_edid_modes`: monitor
descriptors are skipped; for a detailed descriptor the geometry is
`width = hactl + ((hactblankh & 0xF0) << 4)`,
`height = vactl + ((vactblankh & 0xF0) << 4)` (computed identically on every
`hz` iteration in the source, hoisted here), and all refresh rates in
`[50, 100)` are tried. -/
def descStep (s : Device × Nat) (d : EdidTimingDesc) : Device × Nat :=
  match d with
  | .monitor => s
  | .detail dt =>
    (List.range' 50 50).foldl
      (detailHzStep (dt.hactl + ((dt.hactblankh &&& 0xF0) <<< 4))
                    (dt.vactl + ((dt.vactblankh &&& 0xF0) <<< 4))) s

/-- One iteration of the trailing fill loop of `lookup_edid_modes`
(`while (idx < DLO_MODE_DATA_NUM - 1) dev->supported[idx++] = DLO_INVALID_MODE`). -/
def fillStep (dev : Device) (i : Nat) : Device :=
  { dev with supported := dev.supported.set i DLO_INVALID_MODE }

/-- `lookup_edid_modes` of `src/dlo_mode.c`: clear `dev->native`, walk the 24
established-timing table rows, walk the four timing descriptors over the
refresh range `[50, 100)`, then fill the remaining entries up to index
`DLO_MODE_DATA_NUM - 2` with the invalid-mode sentinel (the last array slot
is never written by this loop).  Always returns `dlo_ok`. -/
def lookup_edid_modes (dev : Device) (edid : EdidFormat) : Retcode × Device :=
  let s1 := est_timings.foldl estStep ({ dev with native := modeZero }, 0)
  let s2 := edid.timings.foldl descStep s1
  let devf := (List.range' s2.2 (DLO_MODE_DATA_NUM - 1 - s2.2)).foldl fillStep s2.1
  (.ok, devf)

/-- `dlo_mode_parse_edid`: reject a block whose first 8 bytes differ from the
fixed header or whose byte sum is non-zero mod 256, otherwise parse the
record and derive the supported-modes list.  (The `ASSERT(EDID_STRUCT_SZ ==
size)` precondition is the 128-byte length hypothesis of the theorems.) -/
def dlo_mode_parse_edid (dev : Device) (bytes : List Nat) : Retcode × Device :=
  if bytes.take 8 ≠ edid_header then (.err_edid_fail, dev)
  else if bad_edid_checksum bytes then (.err_edid_fail, dev)
  else lookup_edid_modes dev (parseEdidRecord bytes)

/-- A bare device: empty command buffer of capacity 64, all display state
zeroed, supported list still zero-filled (as after `calloc`). -/
def devBlank : Device :=
  { bufCap := 64, buf := [], mode := modeZero, base8 := 0, low_blank := false,
    native := modeZero, supported := List.replicate DLO_MODE_DATA_NUM 0 }

/-- A 128-byte EDID block with a valid header and checksum and nothing else
set (all other bytes zero except the checksum byte 6 at offset 0x7F). -/
def edidPlain : List Nat :=
  edid_header ++ List.replicate 119 0 ++ [6]

/-- The EDID block of claim C3's scenario: valid header and checksum,
`timings[0] = 0x20` at offset 0x23 (bit 5: 640x480@60), every other timing
byte zero, all four descriptors zero (monitor descriptors). -/
def edidEst20 : List Nat :=
  edid_header ++ List.replicate 27 0 ++ [0x20] ++ List.replicate 91 0 ++ [230]

/-- The EDID block used against claim C4: valid header and checksum, byte
`0x19` (the red/green low bits per the claim) is `0xFF`, byte `0x21` (the
white-x high byte per the claim) is 1, everything else in the colour area
zero. -/
def edidColour : List Nat :=
  edid_header ++ List.replicate 17 0 ++ [0xFF] ++ List.replicate 7 0 ++ [1] ++
    List.replicate 93 0 ++ [6]

/-- A colour-block byte reader used to isolate the white-x expansion bug from
the offset bug: feed `parse_edid_colours` with base 0, so its own offsets
`0x19..0x22` are the block offsets, with the `wht_x` byte (offset 0x21) equal
to 3 and the `wht_y` byte (offset 0x22) equal to 7. -/
def whtProbe : Nat → Nat :=
  fun i => if i = 0x21 then 3 else if i = 0x22 then 7 else 0

/-- The EDID block of claim C5's scenario: valid header and checksum,
descriptor 0 is a detailed timing descriptor (`pixclk` low byte 1) whose
geometry decodes to 1280x1024 (`hactblankh = 0x50` at 0x3A,
`vactblankh = 0x40` at 0x3D), all other timing bytes zero. -/
def edidDetail1280 : List Nat :=
  edid_header ++ List.replicate 46 0 ++ [1, 0, 0, 0, 0x50, 0, 0, 0x40] ++
    List.replicate 65 0 ++ [117]

/-- The established-timings phase of `lookup_edid_modes` started on a
default-initialised device (what `dlo_mode_parse_edid` reaches just before
the descriptor walk; it does not depend on the EDID contents, see
`estStep`). -/
def estPhaseDefault : Device × Nat :=
  est_timings.foldl estStep ({ use_default_modes devBlank with native := modeZero }, 0)

/-- Desired mode used against claim C8: geometry 32767x32767 at 24 bpp with
base address 2148000000 — all representable in the source's field types, but
`base + 2 * width * height = 4295352578` exceeds the 32-bit range of
`dev->base8`. -/
def descWide : DloMode := ⟨⟨32767, 32767, 24, 2148000000⟩, 60⟩

/-- Whether some catalogue entry matches `(width, height, refresh)` at 24 bpp
under `get_mode_number`'s tests (height 0 is a wildcard; the refresh argument
is only used with `50 ≤ refresh` below, so it is never the wildcard 0).  A
hit of `add_supported` forces this predicate, whatever the supported list
holds — the basis of the counting argument for claim C6. -/
def catHit (width height refresh : Nat) : Bool :=
  dlo_mode_data.any (fun e =>
    decide (e.width = width) && decide (e.bpp = 24) &&
    (decide (height = 0) || decide (e.height = height)) &&
    decide (e.refresh = refresh))

/-- Refresh rates of the catalogue entries matching a geometry (height 0 a
wildcard); `catHit width height r` is membership of `r` in this list. -/
def refreshesOf (width height : Nat) : List Nat :=
  (dlo_mode_data.filter (fun e =>
    decide (e.width = width) && decide (e.bpp = 24) &&
    (decide (height = 0) || decide (e.height = height)))).map (fun e => e.refresh)

/-- Folding byte addition through a `uint8_t` accumulator computes the sum of
the list modulo 256. -/
theorem foldl_mod256 (L : List Nat) : ∀ c : Nat,
    L.foldl (fun a b => (a + b) % 256) (c % 256) = (c + L.sum) % 256 := by
  induction L with
  | nil => intro c; simp
  | cons x xs ih =>
    intro c
    simp only [List.foldl_cons, List.sum_cons]
    rw [Nat.mod_add_mod]
    rw [ih (c + x)]
    ring_nf

/-- The checksum test of `bad_edid_checksum` is exactly "byte sum divisible by
256". -/
theorem bad_edid_checksum_iff (bytes : List Nat) :
    bad_edid_checksum bytes = false ↔ bytes.sum % 256 = 0 := by
  have h0 : (0 : Nat) = 0 % 256 := rfl
  unfold bad_edid_checksum
  rw [h0, foldl_mod256 bytes 0]
  simp

/-- First component of `dlo_mode_parse_edid`: the header and checksum tests
decide the result, and a block passing both always parses successfully. -/
theorem parse_edid_fst (dev : Device) (bytes : List Nat) :
    (dlo_mode_parse_edid dev bytes).1 =
      if bytes.take 8 ≠ edid_header then .err_edid_fail
      else if bad_edid_checksum bytes then .err_edid_fail
      else .ok := by
  unfold dlo_mode_parse_edid
  split
  · rfl
  · split
    · rfl
    · rfl

/-- Claim C1: for every 128-byte input, `dlo_mode_parse_edid` fails with
`EDID_FAIL` when the first 8 bytes differ from the fixed header
`00 FF FF FF FF FF FF 00` or when the unsigned sum of all 128 bytes modulo
256 is non-zero; and for every 128-byte input whose first 8 bytes equal that
header, parsing succeeds if and only if the sum of the 128 bytes modulo 256
is zero. -/
theorem claim_C1 : ∀ (dev : Device) (bytes : List Nat),
    bytes.length = 128 → (∀ x ∈ bytes, x < 256) →
    ((bytes.take 8 ≠ edid_header ∨ bytes.sum % 256 ≠ 0) →
       (dlo_mode_parse_edid dev bytes).1 = .err_edid_fail) ∧
    (bytes.take 8 = edid_header →
       ((dlo_mode_parse_edid dev bytes).1 = .ok ↔ bytes.sum % 256 = 0)) := by
  intro dev bytes _ _
  constructor
  · rintro (h | h)
    · rw [parse_edid_fst, if_pos h]
    · have ht : bad_edid_checksum bytes = true := by
        rcases Bool.eq_false_or_eq_true (bad_edid_checksum bytes) with ht | hf
        · exact ht
        · exact absurd ((bad_edid_checksum_iff bytes).mp hf) h
      rw [parse_edid_fst]
      by_cases hh : bytes.take 8 = edid_header
      · rw [if_neg (by simp [hh]), ht]
        simp
      · rw [if_pos hh]
  · intro hh
    rw [parse_edid_fst, if_neg (by simp [hh])]
    rcases Bool.eq_false_or_eq_true (bad_edid_checksum bytes) with ht | hf
    · rw [ht]
      simp only [if_true]
      have hs : ¬ bytes.sum % 256 = 0 := by
        intro h0
        have hf := (bad_edid_checksum_iff bytes).mpr h0
        rw [hf] at ht
        cases ht
      exact ⟨fun hcon => absurd hcon (by decide), fun h0 => absurd h0 hs⟩
    · rw [hf]
      have hs := (bad_edid_checksum_iff bytes).mp hf
      simp only [Bool.false_eq_true, if_false]
      exact ⟨fun _ => hs, fun _ => trivial⟩

set_option maxRecDepth 40000 in
/-- Witness for claim C1: a concrete valid-header block whose bytes sum to 0
mod 256 parses successfully. -/
theorem claim_C1_witness :
    (dlo_mode_parse_edid devBlank edidPlain).1 = Retcode.ok :=
  ((claim_C1 devBlank edidPlain (by decide) (by decide)).2 (by decide)).mpr (by decide)

/-- Claim C10: `dlo_mode_from_number` returns NULL exactly for numbers at or
beyond the 35-entry catalogue, and otherwise a record copying the catalogue
entry's width, height, bpp and refresh with `view.base = 0`. -/
theorem claim_C10 : ∀ num : Nat,
    (dlo_mode_from_number num = none ↔ DLO_MODE_DATA_NUM ≤ num) ∧
    (num < DLO_MODE_DATA_NUM →
      dlo_mode_from_number num =
        some { view := { width := (catEntry num).width, height := (catEntry num).height,
                         bpp := (catEntry num).bpp, base := 0 },
               refresh := (catEntry num).refresh }) := by
  intro num
  unfold dlo_mode_from_number
  constructor
  · split
    · rename_i h
      constructor
      · intro hc
        exact absurd hc (by simp)
      · intro hle
        exact absurd hle (by omega)
    · rename_i h
      exact ⟨fun _ => by omega, fun _ => rfl⟩
  · intro h
    rw [if_pos h]

/-- Witness for claim C10: the boundary values 35 (just past the catalogue)
and 34 (the 640x480@60 entry). -/
theorem claim_C10_witness :
    dlo_mode_from_number 35 = none ∧
    dlo_mode_from_number 34 = some ⟨⟨640, 480, 24, 0⟩, 60⟩ :=
  ⟨(claim_C10 35).1.mpr (by decide),
   ((claim_C10 34).2 (by decide)).trans (by decide)⟩

/-- Claim C9: staging never writes partially — `vbuf` fails with `BUF_FULL`
leaving the buffer untouched when fewer than `len` bytes are free and
otherwise appends exactly the given bytes; `vreg` fails with `BUF_FULL`
leaving the buffer untouched when fewer than 4 bytes are free and otherwise
appends exactly `AF 20 reg val`. -/
theorem claim_C9 : ∀ (dev : Device) (b : List Nat) (reg val : Nat),
    dev.buf.length ≤ dev.bufCap → reg < 256 → val < 256 →
    ((dev.bufCap - dev.buf.length < b.length → vbuf dev b = (.err_buf_full, dev)) ∧
     (b.length ≤ dev.bufCap - dev.buf.length →
        vbuf dev b = (.ok, { dev with buf := dev.buf ++ b })) ∧
     (dev.bufCap - dev.buf.length < 4 → vreg dev reg val = (.err_buf_full, dev)) ∧
     (4 ≤ dev.bufCap - dev.buf.length →
        vreg dev reg val = (.ok, { dev with buf := dev.buf ++ [0xAF, 0x20, reg, val] }))) := by
  intro dev b reg val _ hr hv
  refine ⟨?_, ?_, ?_, ?_⟩
  · intro h; unfold vbuf; rw [if_pos h]
  · intro h; unfold vbuf; rw [if_neg (by omega)]
  · intro h; unfold vreg; rw [if_pos h]
  · intro h; unfold vreg; rw [if_neg (by omega), Nat.mod_eq_of_lt hr, Nat.mod_eq_of_lt hv]

/-- Witness for claim C9: on a device with a 3-byte buffer, `vreg` fails with
`BUF_FULL` and changes nothing (spec scenario 6); with 4 bytes free it stages
exactly `AF 20 20 00`. -/
theorem claim_C9_witness :
    vreg { devBlank with bufCap := 3 } 0x20 0 = (.err_buf_full, { devBlank with bufCap := 3 }) ∧
    vreg { devBlank with bufCap := 4 } 0x20 0 =
      (.ok, { devBlank with bufCap := 4, buf := [0xAF, 0x20, 0x20, 0] }) :=
  ⟨(claim_C9 { devBlank with bufCap := 3 } [] 0x20 0 (by decide) (by decide)
      (by decide)).2.2.1 (by decide),
   ((claim_C9 { devBlank with bufCap := 4 } [] 0x20 0 (by decide) (by decide)
      (by decide)).2.2.2 (by decide)).trans (by decide)⟩

/-- The four skip tests of the `get_mode_number` loop accept a candidate
exactly when the claim's conjunctive matching relation holds. -/
theorem gmn_cond_iff (num width height refresh bpp : Nat) :
    (¬ (catEntry num).width ≠ width ∧ ¬(bpp ≠ 0 ∧ (catEntry num).bpp ≠ bpp) ∧
     ¬(height ≠ 0 ∧ (catEntry num).height ≠ height) ∧
     ¬(refresh ≠ 0 ∧ (catEntry num).refresh ≠ refresh)) ↔
    claim_mode_matches num width height refresh bpp = true := by
  simp only [claim_mode_matches, Bool.and_eq_true, Bool.or_eq_true, decide_eq_true_eq]
  tauto

/-- The `get_mode_number` loop body equals the claim's walk: stop at the
sentinel, return the first entry satisfying the matching relation, else the
invalid mode. -/
theorem gmnList_eq_claim (width height refresh bpp : Nat) : ∀ L : List Nat,
    gmnList width height refresh bpp L =
      ((L.takeWhile (fun n => n ≠ DLO_INVALID_MODE)).find?
        (fun n => claim_mode_matches n width height refresh bpp)).getD DLO_INVALID_MODE := by
  intro L
  induction L with
  | nil => rfl
  | cons num rest ih =>
    by_cases h0 : num = DLO_INVALID_MODE
    · unfold gmnList
      rw [if_pos h0]
      have htw : (num :: rest).takeWhile (fun n => n ≠ DLO_INVALID_MODE) = [] := by
        simp [List.takeWhile_cons, h0]
      rw [htw]
      rfl
    · have htw : (num :: rest).takeWhile (fun n => n ≠ DLO_INVALID_MODE) =
          num :: rest.takeWhile (fun n => n ≠ DLO_INVALID_MODE) := by
        simp [List.takeWhile_cons, h0]
      unfold gmnList
      rw [if_neg h0, htw]
      by_cases hm : claim_mode_matches num width height refresh bpp = true
      · simp only [List.find?_cons, hm]
        obtain ⟨c1, c2, c3, c4⟩ := (gmn_cond_iff num width height refresh bpp).mpr hm
        rw [if_neg c1, if_neg c2, if_neg c3, if_neg c4]
        rfl
      · have hmf : claim_mode_matches num width height refresh bpp = false := by
          simpa using hm
        simp only [List.find?_cons, hmf]
        by_cases c1 : (catEntry num).width ≠ width
        · rw [if_pos c1]; exact ih
        · rw [if_neg c1]
          by_cases c2 : bpp ≠ 0 ∧ (catEntry num).bpp ≠ bpp
          · rw [if_pos c2]; exact ih
          · rw [if_neg c2]
            by_cases c3 : height ≠ 0 ∧ (catEntry num).height ≠ height
            · rw [if_pos c3]; exact ih
            · rw [if_neg c3]
              by_cases c4 : refresh ≠ 0 ∧ (catEntry num).refresh ≠ refresh
              · rw [if_pos c4]; exact ih
              · exact absurd ((gmn_cond_iff num width height refresh bpp).mp
                  ⟨c1, c2, c3, c4⟩) hm

/-- Claim C2: `dlo_mode_lookup` rejects any request with `bpp != 24`
immediately, and otherwise walks `dev.supported` in order up to the first
sentinel (or `DLO_MODE_DATA_NUM` entries), returning the first entry whose
catalogue row satisfies the claim's conjunctive matching relation, or
`INVALID_MODE` when none does. -/
theorem claim_C2 : ∀ (dev : Device) (width height refresh bpp : Nat),
    dlo_mode_lookup dev width height refresh bpp =
      if bpp ≠ 24 then DLO_INVALID_MODE
      else (claim_lookup_walk dev.supported width height refresh bpp).getD DLO_INVALID_MODE := by
  intro dev width height refresh bpp
  unfold dlo_mode_lookup claim_lookup_walk get_mode_number
  split
  · rfl
  · exact gmnList_eq_claim width height refresh bpp (dev.supported.take DLO_MODE_DATA_NUM)

/-- Claim C7: `dlo_mode_change` fails with `BAD_MODE` when the supplied index
is `INVALID_MODE` and the fallback lookup (width, height, refresh 0, bpp of
the desired mode) also finds nothing; it fails with `BAD_MODE` whenever the
desired base address is odd; and when the checks pass but the initial flush
of the pending command buffer fails, it returns `INVALID_MODE` — the
mode-index sentinel — as the error code. -/
theorem claim_C7 : ∀ (t : List Bool) (dev : Device) (desc : DloMode) (mode : Nat),
    ((mode = DLO_INVALID_MODE ∧
        get_mode_number dev desc.view.width desc.view.height 0 desc.view.bpp =
          DLO_INVALID_MODE) →
      (dlo_mode_change t dev desc mode).1 = .err_bad_mode) ∧
    (desc.view.base % 2 = 1 → (dlo_mode_change t dev desc mode).1 = .err_bad_mode) ∧
    (∀ rest : List Bool, mode < DLO_MODE_DATA_NUM → desc.view.base % 2 = 0 →
      t = false :: rest → (dlo_mode_change t dev desc mode).1 = .invalid_mode) := by
  intro t dev desc mode
  refine ⟨?_, ?_, ?_⟩
  · rintro ⟨hm, hl⟩
    unfold dlo_mode_change
    rw [if_pos hm, hl]
    unfold mode_select
    rw [if_pos (Or.inr rfl)]
  · intro hodd
    unfold dlo_mode_change mode_select
    by_cases hbad : DLO_MODE_DATA_NUM ≤
        (if mode = DLO_INVALID_MODE then
           get_mode_number dev desc.view.width desc.view.height 0 desc.view.bpp
         else mode) ∨
        (if mode = DLO_INVALID_MODE then
           get_mode_number dev desc.view.width desc.view.height 0 desc.view.bpp
         else mode) = DLO_INVALID_MODE
    · rw [if_pos hbad]
    · rw [if_neg hbad, if_pos hodd]
  · intro rest hlt heven ht
    have hne : mode ≠ DLO_INVALID_MODE := by
      intro h
      rw [h] at hlt
      exact absurd hlt (by decide)
    unfold dlo_mode_change
    rw [if_neg hne]
    unfold mode_select
    rw [if_neg (by omega), if_neg (by omega), ht]
    have hw : (dlo_usb_write (false :: rest) dev).1 = .err_usb := rfl
    rw [if_pos (by rw [hw]; decide)]

/-- Witness for claim C7: a blank device (whose zero-filled supported list
matches no 1x1 request), an odd base address, and a first flush forced to
fail. -/
theorem claim_C7_witness :
    (dlo_mode_change [] devBlank ⟨⟨1, 1, 24, 0⟩, 0⟩ DLO_INVALID_MODE).1 = .err_bad_mode ∧
    (dlo_mode_change [] devBlank ⟨⟨1024, 768, 24, 1⟩, 60⟩ 21).1 = .err_bad_mode ∧
    (dlo_mode_change [false] devBlank ⟨⟨1024, 768, 24, 0⟩, 60⟩ 21).1 = .invalid_mode :=
  ⟨(claim_C7 [] devBlank ⟨⟨1, 1, 24, 0⟩, 0⟩ DLO_INVALID_MODE).1 ⟨rfl, by decide⟩,
   (claim_C7 [] devBlank ⟨⟨1024, 768, 24, 1⟩, 60⟩ 21).2.1 (by decide),
   (claim_C7 [false] devBlank ⟨⟨1024, 768, 24, 0⟩, 60⟩ 21).2.2 [] (by decide) (by decide) rfl⟩

/-- Outcome shape of `vbuf`: success or `BUF_FULL`, and only the staged bytes
change. -/
theorem vbuf_shape (d : Device) (b : List Nat) :
    ((vbuf d b).1 = .ok ∨ (vbuf d b).1 = .err_buf_full) ∧
    ∃ bu, (vbuf d b).2 = { d with buf := bu } := by
  unfold vbuf
  split
  · exact ⟨Or.inr rfl, d.buf, rfl⟩
  · exact ⟨Or.inl rfl, d.buf ++ b, rfl⟩

/-- Outcome shape of `vreg`: success or `BUF_FULL`, and only the staged bytes
change. -/
theorem vreg_shape (d : Device) (r v : Nat) :
    ((vreg d r v).1 = .ok ∨ (vreg d r v).1 = .err_buf_full) ∧
    ∃ bu, (vreg d r v).2 = { d with buf := bu } := by
  unfold vreg
  split
  · exact ⟨Or.inr rfl, d.buf, rfl⟩
  · exact ⟨Or.inl rfl, d.buf ++ [0xAF, 0x20, r % 256, v % 256], rfl⟩

/-- Outcome shape of a flush: success or a transport error, and the staged
region is empty afterwards either way. -/
theorem usb_write_shape (t : List Bool) (d : Device) :
    ((dlo_usb_write t d).1 = .ok ∨ (dlo_usb_write t d).1 = .err_usb) ∧
    (dlo_usb_write t d).2.2 = { d with buf := [] } := by
  unfold dlo_usb_write
  dsimp only
  split
  · exact ⟨Or.inl rfl, rfl⟩
  · exact ⟨Or.inr rfl, rfl⟩

/-- Outcome shape of a control-channel select: success or a transport error,
device untouched. -/
theorem chan_sel_shape (t : List Bool) (d : Device) :
    ((dlo_usb_chan_sel t d).1 = .ok ∨ (dlo_usb_chan_sel t d).1 = .err_usb) ∧
    (dlo_usb_chan_sel t d).2.2 = d := by
  unfold dlo_usb_chan_sel
  dsimp only
  split
  · exact ⟨Or.inl rfl, rfl⟩
  · exact ⟨Or.inr rfl, rfl⟩

/-- Outcome shape of a bulk blob write: success or a transport error, device
untouched. -/
theorem write_buf_shape (t : List Bool) (d : Device) :
    ((dlo_usb_write_buf t d).1 = .ok ∨ (dlo_usb_write_buf t d).1 = .err_usb) ∧
    (dlo_usb_write_buf t d).2.2 = d := by
  unfold dlo_usb_write_buf
  dsimp only
  split
  · exact ⟨Or.inl rfl, rfl⟩
  · exact ⟨Or.inr rfl, rfl⟩

/-- Outcome shape of `set_base`: success, `BUF_FULL` or a transport error
(never a warning or a bad-mode error), and only the staged bytes of the
device change. -/
theorem set_base_shape (t : List Bool) (d : Device) (b b8 : Nat) :
    ((set_base t d b b8).1 = .ok ∨ (set_base t d b b8).1 = .err_buf_full ∨
     (set_base t d b b8).1 = .err_usb) ∧
    ∃ bu, (set_base t d b b8).2.2 = { d with buf := bu } := by
  unfold set_base
  obtain ⟨ha, bua, hda⟩ := vbuf_shape d WRITE_VIDREG_LOCK
  by_cases e1 : (vbuf d WRITE_VIDREG_LOCK).1 ≠ Retcode.ok
  · rw [if_pos e1]
    rcases ha with ha | ha
    · exact absurd ha e1
    · exact ⟨Or.inr (Or.inl ha), bua, hda⟩
  · rw [if_neg e1, hda]
    obtain ⟨hb, bub, hdb⟩ := vreg_shape { d with buf := bua } 0x20 (b >>> 16)
    by_cases e2 : (vreg { d with buf := bua } 0x20 (b >>> 16)).1 ≠ Retcode.ok
    · rw [if_pos e2]
      rcases hb with hb | hb
      · exact absurd hb e2
      · exact ⟨Or.inr (Or.inl hb), bub, hdb⟩
    · rw [if_neg e2, hdb]
      obtain ⟨hc, buc, hdc⟩ := vreg_shape { d with buf := bub } 0x21 (b >>> 8)
      by_cases e3 : (vreg { d with buf := bub } 0x21 (b >>> 8)).1 ≠ Retcode.ok
      · rw [if_pos e3]
        rcases hc with hc | hc
        · exact absurd hc e3
        · exact ⟨Or.inr (Or.inl hc), buc, hdc⟩
      · rw [if_neg e3, hdc]
        obtain ⟨hd, bud, hdd⟩ := vreg_shape { d with buf := buc } 0x22 b
        by_cases e4 : (vreg { d with buf := buc } 0x22 b).1 ≠ Retcode.ok
        · rw [if_pos e4]
          rcases hd with hd | hd
          · exact absurd hd e4
          · exact ⟨Or.inr (Or.inl hd), bud, hdd⟩
        · rw [if_neg e4, hdd]
          obtain ⟨he, bue, hde⟩ := vreg_shape { d with buf := bud } 0x26 (b8 >>> 16)
          by_cases e5 : (vreg { d with buf := bud } 0x26 (b8 >>> 16)).1 ≠ Retcode.ok
          · rw [if_pos e5]
            rcases he with he | he
            · exact absurd he e5
            · exact ⟨Or.inr (Or.inl he), bue, hde⟩
          · rw [if_neg e5, hde]
            obtain ⟨hf, buf1, hdf⟩ := vreg_shape { d with buf := bue } 0x27 (b8 >>> 8)
            by_cases e6 : (vreg { d with buf := bue } 0x27 (b8 >>> 8)).1 ≠ Retcode.ok
            · rw [if_pos e6]
              rcases hf with hf | hf
              · exact absurd hf e6
              · exact ⟨Or.inr (Or.inl hf), buf1, hdf⟩
            · rw [if_neg e6, hdf]
              obtain ⟨hg, bug, hdg⟩ := vreg_shape { d with buf := buf1 } 0x28 b8
              by_cases e7 : (vreg { d with buf := buf1 } 0x28 b8).1 ≠ Retcode.ok
              · rw [if_pos e7]
                rcases hg with hg | hg
                · exact absurd hg e7
                · exact ⟨Or.inr (Or.inl hg), bug, hdg⟩
              · rw [if_neg e7, hdg]
                obtain ⟨hk, buk, hdk⟩ := vbuf_shape { d with buf := bug } WRITE_VIDREG_UNLOCK
                by_cases e8 : (vbuf { d with buf := bug } WRITE_VIDREG_UNLOCK).1 ≠ Retcode.ok
                · rw [if_pos e8]
                  rcases hk with hk | hk
                  · exact absurd hk e8
                  · exact ⟨Or.inr (Or.inl hk), buk, hdk⟩
                · rw [if_neg e8, hdk]
                  obtain ⟨hw, hdw⟩ := usb_write_shape t { d with buf := buk }
                  by_cases e9 : (dlo_usb_write t { d with buf := buk }).1 ≠ Retcode.ok
                  · rw [if_pos e9]
                    rcases hw with hw | hw
                    · exact absurd hw e9
                    · exact ⟨Or.inr (Or.inr hw), [], hdw⟩
                  · rw [if_neg e9]
                    exact ⟨Or.inl rfl, [], hdw⟩

/-- Counterexample to claim C8 as stated: with desired mode `descWide`
(32767x32767 at 24 bpp, base 2148000000 — every field within its C type's
range) and catalogue index 21, `dlo_mode_change` completes without error but
`dev.base8` is the 32-bit truncation 385282 of
`base + 2*width*height = 4295352578`, not the untruncated sum. -/
theorem claim_C8_counterexample :
    (dlo_mode_change [] devBlank descWide 21).1 = .ok ∧
    (dlo_mode_change [] devBlank descWide 21).2.2.base8 = 385282 ∧
    descWide.view.base + BYTES_PER_16BPP * descWide.view.width * descWide.view.height =
      4295352578 ∧
    (385282 : Nat) ≠ 4295352578 := by
  refine ⟨?_, ?_, by decide, by decide⟩
  · decide
  · decide


/-- Success shape of `mode_select_finish`: when it does not fail, the device
holds the desired mode with the catalogue refresh override and `low_blank`
flag, the staged bytes were flushed, and the DL160 warning appears exactly
for modes below `DLO_DL120_MODES`. -/
theorem mode_select_finish_shape : ∀ (t : List Bool) (dev : Device) (desc : DloMode) (mode : Nat),
    ((mode_select_finish t dev desc mode).1 = .ok ∨
     (mode_select_finish t dev desc mode).1 = .warn_dl160_mode) →
    ((mode_select_finish t dev desc mode).2.2 =
       { dev with mode := { desc with refresh := (catEntry mode).refresh },
                  low_blank := (catEntry mode).low_blank, buf := [] } ∧
     ((mode_select_finish t dev desc mode).1 = .warn_dl160_mode ↔ mode < DLO_DL120_MODES)) := by
  intro t dev desc mode hsucc
  unfold mode_select_finish at hsucc ⊢
  dsimp only at hsucc ⊢
  obtain ⟨hw, hwd⟩ := usb_write_shape t
    { dev with mode := { desc with refresh := (catEntry mode).refresh },
               low_blank := (catEntry mode).low_blank }
  by_cases h : (dlo_usb_write t
      { dev with mode := { desc with refresh := (catEntry mode).refresh },
                 low_blank := (catEntry mode).low_blank }).1 ≠ Retcode.ok
  · rw [if_pos h] at hsucc
    rcases hw with hw | hw
    · exact absurd hw h
    · rcases hsucc with h1 | h1 <;> rw [h1] at hw <;> simp at hw
  · rw [if_neg h] at hsucc ⊢
    refine ⟨?_, ?_⟩
    · dsimp only
      rw [hwd]
    · dsimp only at hsucc ⊢
      by_cases hd : mode < DLO_DL120_MODES
      · rw [if_pos hd] at hsucc ⊢
        simp [hd]
      · rw [if_neg hd] at hsucc ⊢
        simp [hd]

/-- Success shape of `mode_select_progseq`: when it does not fail, it behaves
as `mode_select_finish` on the same device (the optional mode-program
transport calls never change the device state, only consume the oracle). -/
theorem mode_select_progseq_shape : ∀ (t : List Bool) (dev : Device) (desc : DloMode) (mode : Nat),
    ((mode_select_progseq t dev desc mode).1 = .ok ∨
     (mode_select_progseq t dev desc mode).1 = .warn_dl160_mode) →
    ∃ t3 : List Bool,
      mode_select_progseq t dev desc mode = mode_select_finish t3 dev desc mode := by
  intro t dev desc mode hsucc
  unfold mode_select_progseq at hsucc ⊢
  by_cases hg : desc.view.width ≠ dev.mode.view.width ∨
      desc.view.height ≠ dev.mode.view.height ∨ desc.view.bpp ≠ dev.mode.view.bpp
  · rw [if_pos hg] at hsucc ⊢
    dsimp only at hsucc ⊢
    obtain ⟨ha, had⟩ := chan_sel_shape t dev
    by_cases h1 : (dlo_usb_chan_sel t dev).1 ≠ Retcode.ok
    · rw [if_pos h1] at hsucc
      rcases ha with ha | ha
      · exact absurd ha h1
      · rcases hsucc with hx | hx <;> rw [hx] at ha <;> simp at ha
    · rw [if_neg h1] at hsucc ⊢
      rw [had] at hsucc ⊢
      obtain ⟨hb, hbd⟩ := write_buf_shape (dlo_usb_chan_sel t dev).2.1 dev
      by_cases h2 : (dlo_usb_write_buf (dlo_usb_chan_sel t dev).2.1 dev).1 ≠ Retcode.ok
      · rw [if_pos h2] at hsucc
        rcases hb with hb | hb
        · exact absurd hb h2
        · rcases hsucc with hx | hx <;> rw [hx] at hb <;> simp at hb
      · rw [if_neg h2] at hsucc ⊢
        rw [hbd] at hsucc ⊢
        obtain ⟨hc, hcd⟩ :=
          chan_sel_shape (dlo_usb_write_buf (dlo_usb_chan_sel t dev).2.1 dev).2.1 dev
        by_cases h3 : (dlo_usb_chan_sel
            (dlo_usb_write_buf (dlo_usb_chan_sel t dev).2.1 dev).2.1 dev).1 ≠ Retcode.ok
        · rw [if_pos h3] at hsucc
          rcases hc with hc | hc
          · exact absurd hc h3
          · rcases hsucc with hx | hx <;> rw [hx] at hc <;> simp at hc
        · rw [if_neg h3] at hsucc ⊢
          rw [hcd] at hsucc ⊢
          exact ⟨_, rfl⟩
  · rw [if_neg hg] at hsucc ⊢
    exact ⟨t, rfl⟩

/-- Success shape of `mode_select` (after the two validity checks): when it
completes without error it behaves as `mode_select_finish` on a device whose
mode base address has been replaced by the desired one and whose `base8` is
the 32-bit byte offset of the 8 bpp plane. -/
theorem mode_select_shape : ∀ (t : List Bool) (dev : Device) (desc : DloMode) (mode : Nat),
    ¬(DLO_MODE_DATA_NUM ≤ mode ∨ mode = DLO_INVALID_MODE) →
    ¬(desc.view.base % 2 = 1) →
    ((mode_select t dev desc mode).1 = .ok ∨
     (mode_select t dev desc mode).1 = .warn_dl160_mode) →
    ∃ (t3 : List Bool) (bu : List Nat),
      mode_select t dev desc mode =
        mode_select_finish t3
          { bufCap := dev.bufCap, buf := bu,
            mode := { view := { width := dev.mode.view.width, height := dev.mode.view.height,
                                bpp := dev.mode.view.bpp, base := desc.view.base },
                      refresh := dev.mode.refresh },
            base8 := (desc.view.base +
                      BYTES_PER_16BPP * desc.view.width * desc.view.height) % U32,
            low_blank := dev.low_blank, native := dev.native, supported := dev.supported }
          desc mode := by
  intro t dev desc mode h1 h2 hsucc
  unfold mode_select at hsucc ⊢
  rw [if_neg h1, if_neg h2] at hsucc ⊢
  dsimp only at hsucc ⊢
  obtain ⟨hw1, hwd1⟩ := usb_write_shape t dev
  by_cases h3 : (dlo_usb_write t dev).1 ≠ Retcode.ok
  · rw [if_pos h3] at hsucc
    rcases hsucc with hx | hx <;> simp at hx
  · rw [if_neg h3] at hsucc ⊢
    rw [hwd1] at hsucc ⊢
    dsimp only at hsucc ⊢
    by_cases h4 : (set_base (dlo_usb_write t dev).2.1
        { bufCap := dev.bufCap, buf := [],
          mode := { view := { width := dev.mode.view.width, height := dev.mode.view.height,
                              bpp := dev.mode.view.bpp, base := desc.view.base },
                    refresh := dev.mode.refresh },
          base8 := (desc.view.base +
                    BYTES_PER_16BPP * desc.view.width * desc.view.height) % U32,
          low_blank := dev.low_blank, native := dev.native, supported := dev.supported }
        desc.view.base
        ((desc.view.base + BYTES_PER_16BPP * desc.view.width * desc.view.height) % U32)).1 ≠
        Retcode.ok
    · rw [if_pos h4] at hsucc
      obtain ⟨hs2, bu2, hsd2⟩ := set_base_shape (dlo_usb_write t dev).2.1
        { bufCap := dev.bufCap, buf := [],
          mode := { view := { width := dev.mode.view.width, height := dev.mode.view.height,
                              bpp := dev.mode.view.bpp, base := desc.view.base },
                    refresh := dev.mode.refresh },
          base8 := (desc.view.base +
                    BYTES_PER_16BPP * desc.view.width * desc.view.height) % U32,
          low_blank := dev.low_blank, native := dev.native, supported := dev.supported }
        desc.view.base
        ((desc.view.base + BYTES_PER_16BPP * desc.view.width * desc.view.height) % U32)
      rcases hs2 with hs | hs | hs
      · exact absurd hs h4
      · rcases hsucc with hx | hx <;> rw [hx] at hs <;> simp at hs
      · rcases hsucc with hx | hx <;> rw [hx] at hs <;> simp at hs
    · rw [if_neg h4] at hsucc ⊢
      obtain ⟨hs2, bu2, hsd2⟩ := set_base_shape (dlo_usb_write t dev).2.1
        { bufCap := dev.bufCap, buf := [],
          mode := { view := { width := dev.mode.view.width, height := dev.mode.view.height,
                              bpp := dev.mode.view.bpp, base := desc.view.base },
                    refresh := dev.mode.refresh },
          base8 := (desc.view.base +
                    BYTES_PER_16BPP * desc.view.width * desc.view.height) % U32,
          low_blank := dev.low_blank, native := dev.native, supported := dev.supported }
        desc.view.base
        ((desc.view.base + BYTES_PER_16BPP * desc.view.width * desc.view.height) % U32)
      rw [hsd2] at hsucc ⊢
      obtain ⟨t3, h5⟩ := mode_select_progseq_shape _ _ desc mode hsucc
      rw [h5]
      exact ⟨t3, bu2, rfl⟩

/-- Claim C8 (amended with the no-overflow side condition forced by the
counterexample): when `dlo_mode_change` completes without error for desired
mode `desc` and catalogue index `mode`, and
`desc.view.base + 2*width*height` fits in 32 bits, the device's mode view
equals `desc`'s (width, height, bpp, base), its refresh is overridden with
catalogue entry `mode`'s refresh, `low_blank` copies that entry's flag,
`base8 = desc.view.base + 2*width*height`, and the result is
`WARN_DL160_MODE` exactly when `mode < DLO_DL120_MODES`. -/
theorem claim_C8_amended : ∀ (t : List Bool) (dev : Device) (desc : DloMode) (mode : Nat),
    mode ≠ DLO_INVALID_MODE →
    desc.view.base + BYTES_PER_16BPP * desc.view.width * desc.view.height < U32 →
    ((dlo_mode_change t dev desc mode).1 = .ok ∨
     (dlo_mode_change t dev desc mode).1 = .warn_dl160_mode) →
    ((dlo_mode_change t dev desc mode).2.2.mode.view.width = desc.view.width ∧
     (dlo_mode_change t dev desc mode).2.2.mode.view.height = desc.view.height ∧
     (dlo_mode_change t dev desc mode).2.2.mode.view.bpp = desc.view.bpp ∧
     (dlo_mode_change t dev desc mode).2.2.mode.view.base = desc.view.base ∧
     (dlo_mode_change t dev desc mode).2.2.mode.refresh = (catEntry mode).refresh ∧
     (dlo_mode_change t dev desc mode).2.2.low_blank = (catEntry mode).low_blank ∧
     (dlo_mode_change t dev desc mode).2.2.base8 =
       desc.view.base + BYTES_PER_16BPP * desc.view.width * desc.view.height ∧
     ((dlo_mode_change t dev desc mode).1 = .warn_dl160_mode ↔ mode < DLO_DL120_MODES)) := by
  intro t dev desc mode hm hbound hsucc
  have hms : dlo_mode_change t dev desc mode = mode_select t dev desc mode := by
    unfold dlo_mode_change
    rw [if_neg hm]
  rw [hms] at hsucc ⊢
  have h1 : ¬(DLO_MODE_DATA_NUM ≤ mode ∨ mode = DLO_INVALID_MODE) := by
    intro hbad
    unfold mode_select at hsucc
    rw [if_pos hbad] at hsucc
    rcases hsucc with h | h <;> simp at h
  have h2 : ¬(desc.view.base % 2 = 1) := by
    intro hodd
    unfold mode_select at hsucc
    rw [if_neg h1, if_pos hodd] at hsucc
    rcases hsucc with h | h <;> simp at h
  obtain ⟨t3, bu, hEq⟩ := mode_select_shape t dev desc mode h1 h2 hsucc
  rw [hEq] at hsucc ⊢
  obtain ⟨hdev, hwarn⟩ := mode_select_finish_shape t3 _ desc mode hsucc
  rw [hdev]
  refine ⟨rfl, rfl, rfl, rfl, rfl, rfl, ?_, hwarn⟩
  dsimp only
  exact Nat.mod_eq_of_lt hbound

/-- Witness for claim C8 (amended): a concrete successful mode change to
1024x768@60 (catalogue index 21) on a blank device with every-transport-call
succeeding; the result is plain success since 21 is not a DL120 mode
index. -/
theorem claim_C8_amended_witness :
    (dlo_mode_change [] devBlank ⟨⟨1024, 768, 24, 0⟩, 60⟩ 21).2.2.mode.view.width = 1024 ∧
    (dlo_mode_change [] devBlank ⟨⟨1024, 768, 24, 0⟩, 60⟩ 21).2.2.base8 = 2 * 1024 * 768 ∧
    ¬ (dlo_mode_change [] devBlank ⟨⟨1024, 768, 24, 0⟩, 60⟩ 21).1 = .warn_dl160_mode := by
  have h := claim_C8_amended [] devBlank ⟨⟨1024, 768, 24, 0⟩, 60⟩ 21
    (by decide) (by decide) (Or.inl (by decide))
  exact ⟨h.1, h.2.2.2.2.2.2.1, fun hw => by
    have := h.2.2.2.2.2.2.2.mp hw
    exact absurd this (by decide)⟩

set_option maxRecDepth 200000 in
/-- Evidence for claim C3 (code bug): on a default-initialised device, the
EDID block `edidEst20` — established-timing bytes `20 00 00`, i.e. only bit 5
(640x480@60) set — parses successfully, yet `supported[0]` is catalogue entry
26 (800x600@60, the bit-0 table row) and `supported[1]` is entry 27
(800x600@56), not the sentinel: the walk of `lookup_edid_modes` tests only
`est_timings[bit].width` and never consults the 24-bit field it assembled
from the EDID, so every catalogue-resolvable table row is appended no matter
which bits are set.  The claim expects `supported[0]` to designate entry 34
(640x480@60) and `supported[1] = INVALID_MODE`. -/
theorem claim_C3_code_divergence :
    (dlo_mode_parse_edid (use_default_modes devBlank) edidEst20).1 = .ok ∧
    byteAt edidEst20 0x23 = 0x20 ∧ byteAt edidEst20 0x24 = 0 ∧ byteAt edidEst20 0x25 = 0 ∧
    (dlo_mode_parse_edid (use_default_modes devBlank) edidEst20).2.supported.getD 0 0 = 26 ∧
    catEntry 26 = ⟨800, 600, 60, 24, false⟩ ∧
    (dlo_mode_parse_edid (use_default_modes devBlank) edidEst20).2.supported.getD 1 0 = 27 ∧
    (dlo_mode_parse_edid (use_default_modes devBlank) edidEst20).2.supported.getD 1 0 ≠
      DLO_INVALID_MODE ∧
    catEntry 34 = ⟨640, 480, 60, 24, false⟩ := by
  decide

set_option maxRecDepth 200000 in
/-- Evidence for claim C4 (code bug): the colour bytes are not read from
`0x19..0x22` of the EDID block — `parse_edid_colours` receives `ptr + 0x19`
and adds the offsets again, so `red_grn_low` comes from `0x32` (here 0, while
byte `0x19` is 0xFF); and `wht_x` is not expanded from its own high byte —
with the white-x high byte 1 at the claimed offset `0x21`, the claim's
expansion gives 4, but the parser yields 0.  With the offset bug factored out
(`whtProbe`, base 0, `wht_x` byte 3, `wht_y` byte 7), the parser still
computes `wht_x = 28` — built from the raw `wht_y` byte — where the claim's
own-high-byte formula gives 12. -/
theorem claim_C4_code_divergence :
    (dlo_mode_parse_edid devBlank edidColour).1 = .ok ∧
    byteAt edidColour 0x19 = 0xFF ∧
    (parseEdidRecord edidColour).colours.red_grn_low = 0 ∧
    byteAt edidColour 0x21 = 1 ∧
    ((byteAt edidColour 0x1A &&& 0x0C) >>> 2) ||| (byteAt edidColour 0x21 <<< 2) = 4 ∧
    (parseEdidRecord edidColour).colours.wht_x = 0 ∧
    whtProbe 0x21 = 3 ∧ whtProbe 0x22 = 7 ∧
    ((whtProbe 0x1A &&& 0x0C) >>> 2) ||| (whtProbe 0x21 <<< 2) = 12 ∧
    (parse_edid_colours whtProbe 0).wht_x = 28 := by
  decide

/-- One iteration of the detailed-timing refresh walk: a miss leaves the
whole state untouched; a hit advances the index and overwrites `dev->native`
with the parameters of the catalogue entry just stored at the previous
index. -/
theorem detailHzStep_cases : ∀ (width height : Nat) (dev : Device) (idx hz : Nat),
    ((detailHzStep width height (dev, idx) hz).2 = idx →
      detailHzStep width height (dev, idx) hz = (dev, idx)) ∧
    ((detailHzStep width height (dev, idx) hz).2 ≠ idx →
      (detailHzStep width height (dev, idx) hz).2 = idx + 1 ∧
      (detailHzStep width height (dev, idx) hz).1.native =
        modeParams ((detailHzStep width height (dev, idx) hz).1.supported.getD idx 0)) := by
  intro width height dev idx hz
  unfold detailHzStep add_supported
  dsimp only
  by_cases hnum : get_mode_number dev width height hz 24 ≠ DLO_INVALID_MODE
  · rw [if_pos hnum]
    dsimp only
    rw [if_pos (by omega)]
    exact ⟨fun hc => by omega, fun _ => ⟨rfl, rfl⟩⟩
  · rw [if_neg hnum]
    dsimp only
    rw [if_neg (by omega)]
    exact ⟨fun _ => rfl, fun hc => absurd rfl hc⟩

/-- The native-mode invariant — the index has moved past some entry and
`dev->native` holds the parameters of the entry just below it — is preserved
by every further iteration of the refresh walk. -/
theorem detailHz_native_aux : ∀ (width height : Nat) (hzs : List Nat) (s : Device × Nat),
    1 ≤ s.2 → s.1.native = modeParams (s.1.supported.getD (s.2 - 1) 0) →
    (1 ≤ (hzs.foldl (detailHzStep width height) s).2 ∧
     (hzs.foldl (detailHzStep width height) s).1.native =
       modeParams ((hzs.foldl (detailHzStep width height) s).1.supported.getD
         ((hzs.foldl (detailHzStep width height) s).2 - 1) 0)) := by
  intro width height hzs
  induction hzs with
  | nil => exact fun s h1 h2 => ⟨h1, h2⟩
  | cons hz rest ih =>
    intro s h1 h2
    simp only [List.foldl_cons]
    by_cases hm : (detailHzStep width height (s.1, s.2) hz).2 = s.2
    · have hid := (detailHzStep_cases width height s.1 s.2 hz).1 hm
      rw [hid]
      exact ih s h1 h2
    · obtain ⟨hidx, hnat⟩ := (detailHzStep_cases width height s.1 s.2 hz).2 hm
      refine ih (detailHzStep width height (s.1, s.2) hz) (by omega) ?_
      rw [hnat, hidx]
      simp

/-- When the refresh walk of one descriptor has appended at least one entry,
the final `dev->native` holds the parameters of the entry appended last
(the one found at the last refresh rate that hit the catalogue). -/
theorem detailHz_native_last : ∀ (width height : Nat) (hzs : List Nat) (s : Device × Nat),
    (hzs.foldl (detailHzStep width height) s).2 ≠ s.2 →
    (hzs.foldl (detailHzStep width height) s).1.native =
      modeParams ((hzs.foldl (detailHzStep width height) s).1.supported.getD
        ((hzs.foldl (detailHzStep width height) s).2 - 1) 0) := by
  intro width height hzs
  induction hzs with
  | nil => exact fun s h => absurd rfl h
  | cons hz rest ih =>
    intro s hne
    simp only [List.foldl_cons] at hne ⊢
    by_cases hm : (detailHzStep width height (s.1, s.2) hz).2 = s.2
    · have hid := (detailHzStep_cases width height s.1 s.2 hz).1 hm
      rw [hid] at hne ⊢
      exact ih s hne
    · obtain ⟨hidx, hnat⟩ := (detailHzStep_cases width height s.1 s.2 hz).2 hm
      have := detailHz_native_aux width height rest
        (detailHzStep width height (s.1, s.2) hz) (by omega) (by rw [hnat, hidx]; simp)
      exact this.2

set_option maxRecDepth 400000 in
/-- Counterexample to claim C5 as stated: parse `edidDetail1280` (descriptor
0 a detailed timing descriptor decoding to geometry 1280x1024) on a
default-initialised device.  After the established-timings walk the append
index is 11; the refresh rates 50..59 all miss, so the first hit of the
descriptor walk is at 60 Hz, appending entry 15 (1280x1024@60) at index 11 —
the claim says `dev.native` is populated with that first-hit entry, whose
refresh is 60.  But the final native refresh is 85: every later hit (75 Hz,
then 85 Hz) overwrites `dev->native`, so the last hit wins, not the first. -/
theorem claim_C5_counterexample :
    (parseEdidRecord edidDetail1280).timings.getD 0 .monitor =
      .detail ⟨1, 0, 0, 0x50, 0, 0, 0x40, 0, 0, 0, 0, 0, 0, 0, 0, 0, 0⟩ ∧
    (0 + ((0x50 &&& 0xF0) <<< 4) = 1280 ∧ 0 + ((0x40 &&& 0xF0) <<< 4) = 1024) ∧
    estPhaseDefault.2 = 11 ∧
    (List.range' 50 10).foldl (detailHzStep 1280 1024) estPhaseDefault = estPhaseDefault ∧
    (detailHzStep 1280 1024 estPhaseDefault 60).2 = 12 ∧
    (detailHzStep 1280 1024 estPhaseDefault 60).1.supported.getD 11 0 = 15 ∧
    catEntry 15 = ⟨1280, 1024, 60, 24, false⟩ ∧
    (detailHzStep 1280 1024 estPhaseDefault 60).1.native.refresh = 60 ∧
    (dlo_mode_parse_edid (use_default_modes devBlank) edidDetail1280).2.native.refresh = 85 ∧
    (85 : Nat) ≠ 60 := by
  decide

set_option maxRecDepth 400000 in
/-- Claim C5 (amended: the native mode records the last catalogue hit of the
detailed-timing walk, not the first).  A miss leaves the state untouched and
every hit populates `dev.native` with the entry just appended, so after the
walk `dev.native` holds the parameters of the catalogue entry found at the
last refresh rate in [50, 100) that hit; in particular, for the EDID whose
descriptor 0 describes 1280x1024 geometry, on a default-initialised device,
`dev.native.width = 1280` and `dev.native.height = 1024` (at 85 Hz, the last
hit). -/
theorem claim_C5_amended :
    (∀ (width height : Nat) (dev : Device) (idx hz : Nat),
      ((detailHzStep width height (dev, idx) hz).2 = idx →
        detailHzStep width height (dev, idx) hz = (dev, idx)) ∧
      ((detailHzStep width height (dev, idx) hz).2 ≠ idx →
        (detailHzStep width height (dev, idx) hz).2 = idx + 1 ∧
        (detailHzStep width height (dev, idx) hz).1.native =
          modeParams ((detailHzStep width height (dev, idx) hz).1.supported.getD idx 0))) ∧
    (∀ (width height : Nat) (hzs : List Nat) (s : Device × Nat),
      (hzs.foldl (detailHzStep width height) s).2 ≠ s.2 →
      (hzs.foldl (detailHzStep width height) s).1.native =
        modeParams ((hzs.foldl (detailHzStep width height) s).1.supported.getD
          ((hzs.foldl (detailHzStep width height) s).2 - 1) 0)) ∧
    (dlo_mode_parse_edid (use_default_modes devBlank) edidDetail1280).2.native =
      ⟨⟨1280, 1024, 24, 0⟩, 85⟩ := by
  refine ⟨detailHzStep_cases, detailHz_native_last, ?_⟩
  decide

/-- Witness for claim C5 (amended): instantiate the miss case at 50 Hz from
the post-established-walk state, and the last-hit characterisation over the
whole [50, 100) walk of the 1280x1024 descriptor. -/
theorem claim_C5_amended_witness :
    detailHzStep 1280 1024 (estPhaseDefault.1, 11) 50 = (estPhaseDefault.1, 11) ∧
    ((List.range' 50 50).foldl (detailHzStep 1280 1024) estPhaseDefault).1.native =
      modeParams (((List.range' 50 50).foldl (detailHzStep 1280 1024)
        estPhaseDefault).1.supported.getD
          (((List.range' 50 50).foldl (detailHzStep 1280 1024) estPhaseDefault).2 - 1) 0) :=
  ⟨(claim_C5_amended.1 1280 1024 estPhaseDefault.1 11 50).1
     (by set_option maxRecDepth 400000 in decide),
   claim_C5_amended.2.1 1280 1024 (List.range' 50 50) estPhaseDefault
     (by set_option maxRecDepth 400000 in decide)⟩

/-- A successful `get_mode_number` walk (at 24 bpp) returns a mode number
whose catalogue row matches the request: exact width, 24 bpp, and — unless
zero was passed as a wildcard — exact height and refresh. -/
theorem gmnList_found : ∀ (w h r : Nat) (L : List Nat),
    gmnList w h r 24 L ≠ DLO_INVALID_MODE →
    (catEntry (gmnList w h r 24 L)).width = w ∧
    (catEntry (gmnList w h r 24 L)).bpp = 24 ∧
    (h ≠ 0 → (catEntry (gmnList w h r 24 L)).height = h) ∧
    (r ≠ 0 → (catEntry (gmnList w h r 24 L)).refresh = r) := by
  intro w h r L
  induction L with
  | nil => intro hne; exact absurd rfl hne
  | cons num rest ih =>
    intro hne
    unfold gmnList at hne ⊢
    by_cases h0 : num = DLO_INVALID_MODE
    · rw [if_pos h0] at hne ⊢
      exact absurd rfl hne
    · rw [if_neg h0] at hne ⊢
      by_cases c1 : (catEntry num).width ≠ w
      · rw [if_pos c1] at hne ⊢; exact ih hne
      · rw [if_neg c1] at hne ⊢
        by_cases c2 : (24 : Nat) ≠ 0 ∧ (catEntry num).bpp ≠ 24
        · rw [if_pos c2] at hne ⊢; exact ih hne
        · rw [if_neg c2] at hne ⊢
          by_cases c3 : h ≠ 0 ∧ (catEntry num).height ≠ h
          · rw [if_pos c3] at hne ⊢; exact ih hne
          · rw [if_neg c3] at hne ⊢
            by_cases c4 : r ≠ 0 ∧ (catEntry num).refresh ≠ r
            · rw [if_pos c4] at hne ⊢; exact ih hne
            · rw [if_neg c4] at hne ⊢
              push_neg at c1 c2 c3 c4
              exact ⟨c1, c2 (by omega), fun hh => c3 hh, fun hh => c4 hh⟩

/-- Only genuine catalogue indices carry a 24 bpp row: out-of-range reads hit
the all-zero default entry. -/
theorem catEntry_bpp24_lt : ∀ num : Nat, (catEntry num).bpp = 24 → num < DLO_MODE_DATA_NUM := by
  intro num hb
  by_contra hge
  have hdef : dlo_mode_data.getD num ⟨0, 0, 0, 0, false⟩ = ⟨0, 0, 0, 0, false⟩ := by
    apply List.getD_eq_default
    have hlen : dlo_mode_data.length = 35 := by decide
    have h35 : DLO_MODE_DATA_NUM = 35 := rfl
    omega
  unfold catEntry at hb
  rw [hdef] at hb
  simp at hb

/-- A hit of the supported-modes walk forces the existence of a matching
catalogue row — whatever the supported array holds. -/
theorem gmn_catHit : ∀ (dev : Device) (w h r : Nat), r ≠ 0 →
    get_mode_number dev w h r 24 ≠ DLO_INVALID_MODE → catHit w h r = true := by
  intro dev w h r hr hne
  obtain ⟨hw, hb, hh, hrr⟩ := gmnList_found w h r (dev.supported.take DLO_MODE_DATA_NUM) hne
  have hlt : gmnList w h r 24 (dev.supported.take DLO_MODE_DATA_NUM) < DLO_MODE_DATA_NUM :=
    catEntry_bpp24_lt _ hb
  have hlen : dlo_mode_data.length = 35 := by decide
  have hmem : catEntry (gmnList w h r 24 (dev.supported.take DLO_MODE_DATA_NUM)) ∈
      dlo_mode_data := by
    unfold catEntry
    have hx : gmnList w h r 24 (dev.supported.take DLO_MODE_DATA_NUM) <
        dlo_mode_data.length := by
      have h35 : DLO_MODE_DATA_NUM = 35 := rfl
      omega
    rw [List.getD_eq_getElem _ _ hx]
    exact List.getElem_mem hx
  unfold catHit
  rw [List.any_eq_true]
  refine ⟨_, hmem, ?_⟩
  simp only [Bool.and_eq_true, Bool.or_eq_true, decide_eq_true_eq]
  refine ⟨⟨⟨hw, hb⟩, ?_⟩, hrr hr⟩
  by_cases hh0 : h = 0
  · exact Or.inl hh0
  · exact Or.inr (hh hh0)

/-- Setting the element just past a known prefix replaces the head of the
suffix. -/
theorem set_append_length : ∀ (A : List Nat) (b : Nat) (bt : List Nat) (v : Nat),
    (A ++ b :: bt).set A.length v = A ++ v :: bt := by
  intro A b bt v
  induction A with
  | nil => rfl
  | cons a rest ih =>
    simp only [List.cons_append, List.length_cons, List.set_cons_succ, ih]

/-- Invariant step for `add_supported`: starting from a supported array split
as a fully-written prefix `A` (all valid catalogue indices) and a suffix `B`,
one call preserves the split, keeps every written entry a valid index, and
advances the index by at most one — and only when the request has a matching
catalogue row at all (`catHit`). -/
theorem add_supported_inv : ∀ (dev : Device) (idx w h r : Nat) (A B : List Nat),
    r ≠ 0 →
    dev.supported = A ++ B → A.length = idx →
    A.length + B.length = DLO_MODE_DATA_NUM →
    (∀ n ∈ A, n < DLO_MODE_DATA_NUM) →
    (catHit w h r = true → idx < DLO_MODE_DATA_NUM) →
    ∃ A2 B2, (add_supported dev idx w h r).1.supported = A2 ++ B2 ∧
      A2.length = (add_supported dev idx w h r).2 ∧
      A2.length + B2.length = DLO_MODE_DATA_NUM ∧
      (∀ n ∈ A2, n < DLO_MODE_DATA_NUM) ∧
      idx ≤ (add_supported dev idx w h r).2 ∧
      (add_supported dev idx w h r).2 ≤
        idx + (if catHit w h r = true then 1 else 0) := by
  intro dev idx w h r A B hr hsup hA hAB hAlt hin
  unfold add_supported
  by_cases hne : get_mode_number dev w h r 24 ≠ DLO_INVALID_MODE
  · rw [if_pos hne]
    dsimp only
    have hch := gmn_catHit dev w h r hr hne
    have hnum : get_mode_number dev w h r 24 < DLO_MODE_DATA_NUM := by
      unfold get_mode_number at hne ⊢
      exact catEntry_bpp24_lt _ (gmnList_found w h r _ hne).2.1
    have hidx : idx < DLO_MODE_DATA_NUM := hin hch
    obtain ⟨b, bt, rfl⟩ : ∃ b bt, B = b :: bt := by
      cases B with
      | nil =>
        exfalso
        simp at hAB
        omega
      | cons b bt => exact ⟨b, bt, rfl⟩
    refine ⟨A ++ [get_mode_number dev w h r 24], bt, ?_, ?_, ?_, ?_, ?_, ?_⟩
    · rw [hsup, ← hA, set_append_length]
      simp
    · simp [hA]
    · simp only [List.length_append, List.length_singleton] at hAB ⊢
      simp at hAB
      omega
    · intro n hn
      rcases List.mem_append.mp hn with hn | hn
      · exact hAlt n hn
      · rw [List.mem_singleton.mp hn]
        exact hnum
    · omega
    · rw [if_pos hch]
  · rw [if_neg hne]
    refine ⟨A, B, hsup, hA, hAB, hAlt, le_refl idx, ?_⟩
    split <;> omega

/-- One refresh iteration of the descriptor walk changes the supported array
and the append index exactly as the underlying `add_supported` call (the
extra work only rewrites `dev->native`). -/
theorem detailHzStep_sup : ∀ (w h : Nat) (s : Device × Nat) (hz : Nat),
    (detailHzStep w h s hz).1.supported = (add_supported s.1 s.2 w h hz).1.supported ∧
    (detailHzStep w h s hz).2 = (add_supported s.1 s.2 w h hz).2 := by
  intro w h s hz
  unfold detailHzStep
  dsimp only
  split
  · exact ⟨rfl, rfl⟩
  · exact ⟨rfl, rfl⟩

/-- Invariant and counting bound for the refresh walk of one detailed
descriptor: the number of appended entries is at most the number of refresh
rates in the walked list that have a matching catalogue row. -/
theorem hz_fold_inv : ∀ (hzs : List Nat) (w h : Nat) (s : Device × Nat) (A B : List Nat),
    (∀ hz ∈ hzs, hz ≠ 0) →
    s.1.supported = A ++ B → A.length = s.2 →
    A.length + B.length = DLO_MODE_DATA_NUM →
    (∀ n ∈ A, n < DLO_MODE_DATA_NUM) →
    s.2 + (hzs.filter (fun hz => catHit w h hz)).length ≤ DLO_MODE_DATA_NUM →
    ∃ A2 B2, (hzs.foldl (detailHzStep w h) s).1.supported = A2 ++ B2 ∧
      A2.length = (hzs.foldl (detailHzStep w h) s).2 ∧
      A2.length + B2.length = DLO_MODE_DATA_NUM ∧
      (∀ n ∈ A2, n < DLO_MODE_DATA_NUM) ∧
      s.2 ≤ (hzs.foldl (detailHzStep w h) s).2 ∧
      (hzs.foldl (detailHzStep w h) s).2 ≤
        s.2 + (hzs.filter (fun hz => catHit w h hz)).length := by
  intro hzs w h
  induction hzs with
  | nil =>
    intro s A B _ hsup hA hAB hAlt _
    exact ⟨A, B, hsup, hA, hAB, hAlt, le_refl _, by simp⟩
  | cons hz rest ih =>
    intro s A B hz0 hsup hA hAB hAlt hbudget
    simp only [List.foldl_cons]
    obtain ⟨hseq, hieq⟩ := detailHzStep_sup w h s hz
    have hin : catHit w h hz = true → s.2 < DLO_MODE_DATA_NUM := by
      intro hch
      have : ((hz :: rest).filter (fun hz => catHit w h hz)).length =
          (rest.filter (fun hz => catHit w h hz)).length + 1 := by
        simp [List.filter_cons, hch]
      omega
    obtain ⟨A1, B1, p1, p2, p3, p4, p5, p6⟩ :=
      add_supported_inv s.1 s.2 w h hz A B (hz0 hz (by simp)) hsup hA hAB hAlt hin
    have hbud2 : (detailHzStep w h s hz).2 +
        (rest.filter (fun hz => catHit w h hz)).length ≤ DLO_MODE_DATA_NUM := by
      by_cases hch : catHit w h hz = true
      · have : ((hz :: rest).filter (fun hz => catHit w h hz)).length =
            (rest.filter (fun hz => catHit w h hz)).length + 1 := by
          simp [List.filter_cons, hch]
        rw [if_pos hch] at p6
        omega
      · have : ((hz :: rest).filter (fun hz => catHit w h hz)).length =
            (rest.filter (fun hz => catHit w h hz)).length := by
          simp [List.filter_cons, hch]
        rw [if_neg hch] at p6
        omega
    obtain ⟨A2, B2, q1, q2, q3, q4, q5, q6⟩ :=
      ih (detailHzStep w h s hz) A1 B1 (fun x hx => hz0 x (by simp [hx]))
        (by rw [hseq]; exact p1) (by rw [hieq]; exact p2) p3 p4 hbud2
    refine ⟨A2, B2, q1, q2, q3, q4, ?_, ?_⟩
    · omega
    · by_cases hch : catHit w h hz = true
      · have : ((hz :: rest).filter (fun hz => catHit w h hz)).length =
            (rest.filter (fun hz => catHit w h hz)).length + 1 := by
          simp [List.filter_cons, hch]
        rw [if_pos hch] at p6
        omega
      · have : ((hz :: rest).filter (fun hz => catHit w h hz)).length =
            (rest.filter (fun hz => catHit w h hz)).length := by
          simp [List.filter_cons, hch]
        rw [if_neg hch] at p6
        omega

/-- A refresh rate has a matching catalogue row exactly when it appears in
the refresh list of the entries matching the geometry. -/
theorem catHit_mem_refreshes : ∀ (w h r : Nat), catHit w h r = true ↔ r ∈ refreshesOf w h := by
  intro w h r
  unfold catHit refreshesOf
  rw [List.any_eq_true]
  constructor
  · rintro ⟨e, hmem, hp⟩
    simp only [Bool.and_eq_true, Bool.or_eq_true, decide_eq_true_eq] at hp
    rw [List.mem_map]
    refine ⟨e, ?_, hp.2⟩
    rw [List.mem_filter]
    refine ⟨hmem, ?_⟩
    simp only [Bool.and_eq_true, Bool.or_eq_true, decide_eq_true_eq]
    exact hp.1
  · intro hr
    rw [List.mem_map] at hr
    obtain ⟨e, hmem, hre⟩ := hr
    rw [List.mem_filter] at hmem
    refine ⟨e, hmem.1, ?_⟩
    simp only [Bool.and_eq_true, Bool.or_eq_true, decide_eq_true_eq] at hmem ⊢
    exact ⟨hmem.2, hre⟩

/-- For every geometry — exact height or wildcard — the catalogue offers at
most 5 distinct refresh rates (the 800x600 family realises the maximum). -/
theorem refreshes_dedup_le : ∀ (w h : Nat), (refreshesOf w h).dedup.length ≤ 5 := by
  intro w h
  by_cases hempty : refreshesOf w h = []
  · rw [hempty]
    decide
  · obtain ⟨r, hr⟩ := List.exists_mem_of_ne_nil _ hempty
    unfold refreshesOf at hr
    rw [List.mem_map] at hr
    obtain ⟨e, hmem, _⟩ := hr
    rw [List.mem_filter] at hmem
    obtain ⟨hel, hp⟩ := hmem
    simp only [Bool.and_eq_true, Bool.or_eq_true, decide_eq_true_eq] at hp
    obtain ⟨⟨hw, _⟩, hh⟩ := hp
    rcases hh with hh | hh
    · rw [← hw, hh]
      revert hel
      have : ∀ e ∈ dlo_mode_data, (refreshesOf e.width 0).dedup.length ≤ 5 := by decide
      exact this e
    · rw [← hw, ← hh]
      revert hel
      have : ∀ e ∈ dlo_mode_data, (refreshesOf e.width e.height).dedup.length ≤ 5 := by decide
      exact this e

/-- Per descriptor, at most 5 refresh rates in [50, 100) can hit the
catalogue. -/
theorem hz_filter_le : ∀ (w h : Nat),
    ((List.range' 50 50).filter (fun r => catHit w h r)).length ≤ 5 := by
  intro w h
  set F := (List.range' 50 50).filter (fun r => catHit w h r) with hF
  have hnodup : F.Nodup := (List.nodup_range' 50 50).filter _
  have hsub : F.toFinset ⊆ (refreshesOf w h).toFinset := by
    intro x hx
    rw [List.mem_toFinset] at hx ⊢
    rw [hF, List.mem_filter] at hx
    exact (catHit_mem_refreshes w h x).mp hx.2
  have h1 : F.length = F.toFinset.card := by
    rw [List.card_toFinset, hnodup.dedup]
  have h2 : F.toFinset.card ≤ (refreshesOf w h).toFinset.card := Finset.card_le_card hsub
  have h3 : (refreshesOf w h).toFinset.card ≤ 5 := by
    rw [List.card_toFinset]
    exact refreshes_dedup_le w h
  omega

/-- Invariant and counting bound for the established-timings walk: the number
of appended entries is at most the number of table rows with non-zero width
whose (width, height, refresh) triple has a catalogue row. -/
theorem est_fold_inv : ∀ (ts : List EstTiming) (s : Device × Nat) (A B : List Nat),
    (∀ tt ∈ ts, tt.width ≠ 0 → tt.refresh ≠ 0) →
    s.1.supported = A ++ B → A.length = s.2 →
    A.length + B.length = DLO_MODE_DATA_NUM →
    (∀ n ∈ A, n < DLO_MODE_DATA_NUM) →
    s.2 + (ts.filter (fun tt =>
      decide (tt.width ≠ 0) && catHit tt.width tt.height tt.refresh)).length ≤
      DLO_MODE_DATA_NUM →
    ∃ A2 B2, (ts.foldl estStep s).1.supported = A2 ++ B2 ∧
      A2.length = (ts.foldl estStep s).2 ∧
      A2.length + B2.length = DLO_MODE_DATA_NUM ∧
      (∀ n ∈ A2, n < DLO_MODE_DATA_NUM) ∧
      s.2 ≤ (ts.foldl estStep s).2 ∧
      (ts.foldl estStep s).2 ≤ s.2 + (ts.filter (fun tt =>
        decide (tt.width ≠ 0) && catHit tt.width tt.height tt.refresh)).length := by
  intro ts
  induction ts with
  | nil =>
    intro s A B _ hsup hA hAB hAlt _
    exact ⟨A, B, hsup, hA, hAB, hAlt, le_refl _, by simp⟩
  | cons tt rest ih =>
    intro s A B hr0 hsup hA hAB hAlt hbudget
    simp only [List.foldl_cons]
    by_cases hw : tt.width ≠ 0
    · have hstep : estStep s tt = add_supported s.1 s.2 tt.width tt.height tt.refresh := by
        unfold estStep
        rw [if_pos hw]
      have hin : catHit tt.width tt.height tt.refresh = true → s.2 < DLO_MODE_DATA_NUM := by
        intro hch
        have : ((tt :: rest).filter (fun tt =>
            decide (tt.width ≠ 0) && catHit tt.width tt.height tt.refresh)).length =
            (rest.filter (fun tt =>
              decide (tt.width ≠ 0) && catHit tt.width tt.height tt.refresh)).length + 1 := by
          simp [List.filter_cons, hch, hw]
        omega
      obtain ⟨A1, B1, p1, p2, p3, p4, p5, p6⟩ :=
        add_supported_inv s.1 s.2 tt.width tt.height tt.refresh A B
          (hr0 tt (by simp) hw) hsup hA hAB hAlt hin
      have hbud2 : (estStep s tt).2 + (rest.filter (fun tt =>
          decide (tt.width ≠ 0) && catHit tt.width tt.height tt.refresh)).length ≤
          DLO_MODE_DATA_NUM := by
        by_cases hch : catHit tt.width tt.height tt.refresh = true
        · have : ((tt :: rest).filter (fun tt =>
              decide (tt.width ≠ 0) && catHit tt.width tt.height tt.refresh)).length =
              (rest.filter (fun tt =>
                decide (tt.width ≠ 0) && catHit tt.width tt.height tt.refresh)).length + 1 := by
            simp [List.filter_cons, hch, hw]
          rw [if_pos hch] at p6
          rw [hstep]
          omega
        · have : ((tt :: rest).filter (fun tt =>
              decide (tt.width ≠ 0) && catHit tt.width tt.height tt.refresh)).length =
              (rest.filter (fun tt =>
                decide (tt.width ≠ 0) && catHit tt.width tt.height tt.refresh)).length := by
            simp [List.filter_cons, hch]
          rw [if_neg hch] at p6
          rw [hstep]
          omega
      obtain ⟨A2, B2, q1, q2, q3, q4, q5, q6⟩ :=
        ih (estStep s tt) A1 B1 (fun x hx => hr0 x (by simp [hx]))
          (by rw [hstep]; exact p1) (by rw [hstep]; exact p2) p3 p4 hbud2
      have hieq : (estStep s tt).2 =
          (add_supported s.1 s.2 tt.width tt.height tt.refresh).2 := by
        rw [hstep]
      refine ⟨A2, B2, q1, q2, q3, q4, ?_, ?_⟩
      · omega
      · by_cases hch : catHit tt.width tt.height tt.refresh = true
        · have : ((tt :: rest).filter (fun tt =>
              decide (tt.width ≠ 0) && catHit tt.width tt.height tt.refresh)).length =
              (rest.filter (fun tt =>
                decide (tt.width ≠ 0) && catHit tt.width tt.height tt.refresh)).length + 1 := by
            simp [List.filter_cons, hch, hw]
          rw [if_pos hch] at p6
          omega
        · have : ((tt :: rest).filter (fun tt =>
              decide (tt.width ≠ 0) && catHit tt.width tt.height tt.refresh)).length =
              (rest.filter (fun tt =>
                decide (tt.width ≠ 0) && catHit tt.width tt.height tt.refresh)).length := by
            simp [List.filter_cons, hch]
          rw [if_neg hch] at p6
          omega
    · have hstep : estStep s tt = s := by
        unfold estStep
        rw [if_neg hw]
      have hfil : ((tt :: rest).filter (fun tt =>
          decide (tt.width ≠ 0) && catHit tt.width tt.height tt.refresh)).length =
          (rest.filter (fun tt =>
            decide (tt.width ≠ 0) && catHit tt.width tt.height tt.refresh)).length := by
        simp [List.filter_cons, hw]
      rw [hstep]
      obtain ⟨A2, B2, q1, q2, q3, q4, q5, q6⟩ :=
        ih s A B (fun x hx => hr0 x (by simp [hx])) hsup hA hAB hAlt (by omega)
      exact ⟨A2, B2, q1, q2, q3, q4, q5, by omega⟩

/-- Invariant and counting bound for the descriptor walk: each descriptor
appends at most 5 entries (its geometry has at most 5 catalogue refresh
rates in [50, 100)). -/
theorem desc_fold_inv : ∀ (ds : List EdidTimingDesc) (s : Device × Nat) (A B : List Nat),
    s.1.supported = A ++ B → A.length = s.2 →
    A.length + B.length = DLO_MODE_DATA_NUM →
    (∀ n ∈ A, n < DLO_MODE_DATA_NUM) →
    s.2 + 5 * ds.length ≤ DLO_MODE_DATA_NUM →
    ∃ A2 B2, (ds.foldl descStep s).1.supported = A2 ++ B2 ∧
      A2.length = (ds.foldl descStep s).2 ∧
      A2.length + B2.length = DLO_MODE_DATA_NUM ∧
      (∀ n ∈ A2, n < DLO_MODE_DATA_NUM) ∧
      s.2 ≤ (ds.foldl descStep s).2 ∧
      (ds.foldl descStep s).2 ≤ s.2 + 5 * ds.length := by
  intro ds
  induction ds with
  | nil =>
    intro s A B hsup hA hAB hAlt _
    exact ⟨A, B, hsup, hA, hAB, hAlt, le_refl _, by simp⟩
  | cons d rest ih =>
    intro s A B hsup hA hAB hAlt hbudget
    simp only [List.foldl_cons, List.length_cons] at hbudget ⊢
    match d with
    | .monitor =>
      have hstep : descStep s .monitor = s := rfl
      rw [hstep]
      obtain ⟨A2, B2, q1, q2, q3, q4, q5, q6⟩ :=
        ih s A B hsup hA hAB hAlt (by omega)
      exact ⟨A2, B2, q1, q2, q3, q4, q5, by omega⟩
    | .detail dt =>
      have hstep : descStep s (.detail dt) =
          (List.range' 50 50).foldl
            (detailHzStep (dt.hactl + ((dt.hactblankh &&& 0xF0) <<< 4))
                          (dt.vactl + ((dt.vactblankh &&& 0xF0) <<< 4))) s := rfl
      rw [hstep]
      have hfil := hz_filter_le (dt.hactl + ((dt.hactblankh &&& 0xF0) <<< 4))
        (dt.vactl + ((dt.vactblankh &&& 0xF0) <<< 4))
      obtain ⟨A1, B1, p1, p2, p3, p4, p5, p6⟩ :=
        hz_fold_inv (List.range' 50 50)
          (dt.hactl + ((dt.hactblankh &&& 0xF0) <<< 4))
          (dt.vactl + ((dt.vactblankh &&& 0xF0) <<< 4)) s A B
          (by decide) hsup hA hAB hAlt (by omega)
      obtain ⟨A2, B2, q1, q2, q3, q4, q5, q6⟩ :=
        ih ((List.range' 50 50).foldl
            (detailHzStep (dt.hactl + ((dt.hactblankh &&& 0xF0) <<< 4))
                          (dt.vactl + ((dt.vactblankh &&& 0xF0) <<< 4))) s)
          A1 B1 p1 p2 p3 p4 (by omega)
      exact ⟨A2, B2, q1, q2, q3, q4, by omega, by omega⟩

/-- The trailing fill loop writes the sentinel into positions
`idx .. idx+n-1`, leaving the prefix and the rest of the suffix alone. -/
theorem fill_fold : ∀ (n : Nat) (dev : Device) (idx : Nat) (A B : List Nat),
    dev.supported = A ++ B → A.length = idx → n ≤ B.length →
    ((List.range' idx n).foldl fillStep dev).supported =
      A ++ List.replicate n DLO_INVALID_MODE ++ B.drop n ∧
    ((List.range' idx n).foldl fillStep dev).native = dev.native := by
  intro n
  induction n with
  | zero =>
    intro dev idx A B hsup hA _
    simp [hsup]
  | succ m ih =>
    intro dev idx A B hsup hA hle
    obtain ⟨b, bt, rfl⟩ : ∃ b bt, B = b :: bt := by
      cases B with
      | nil => simp at hle
      | cons b bt => exact ⟨b, bt, rfl⟩
    have hrange : List.range' idx (m + 1) = idx :: List.range' (idx + 1) m := rfl
    rw [hrange]
    simp only [List.foldl_cons]
    have hfill : (fillStep dev idx).supported = (A ++ [DLO_INVALID_MODE]) ++ bt := by
      unfold fillStep
      dsimp only
      rw [hsup, ← hA, set_append_length]
      simp
    have hnat : (fillStep dev idx).native = dev.native := rfl
    obtain ⟨ih1, ih2⟩ := ih (fillStep dev idx) (idx + 1) (A ++ [DLO_INVALID_MODE]) bt
      hfill (by simp [hA]) (by simpa using hle)
    refine ⟨?_, by rw [ih2, hnat]⟩
    rw [ih1]
    simp [List.replicate_succ, List.append_assoc]

/-- `takeWhile` of "not the sentinel" over a list shaped as a valid prefix
followed by a sentinel returns exactly the prefix. -/
theorem takeWhile_prefix_invalid : ∀ (A C : List Nat),
    (∀ n ∈ A, n ≠ DLO_INVALID_MODE) →
    ((A ++ DLO_INVALID_MODE :: C).takeWhile (fun n => n ≠ DLO_INVALID_MODE)) = A := by
  intro A
  induction A with
  | nil =>
    intro C _
    simp [List.takeWhile_cons]
  | cons a rest ih =>
    intro C hval
    simp only [List.cons_append, List.takeWhile_cons]
    have ha : a ≠ DLO_INVALID_MODE := hval a (by simp)
    rw [if_pos (by simpa using ha)]
    rw [ih C (fun n hn => hval n (by simp [hn]))]

/-- Counterexample to claim C6 as stated: after `use_default_modes` the
supported array holds the 35 valid indices 0..34 and no sentinel at all, so
it is not terminated by `INVALID_MODE` within its length. -/
theorem claim_C6_counterexample :
    (use_default_modes devBlank).supported.length = DLO_MODE_DATA_NUM ∧
    ((use_default_modes devBlank).supported.takeWhile
      (fun n => n ≠ DLO_INVALID_MODE)).length = DLO_MODE_DATA_NUM ∧
    ¬ ((use_default_modes devBlank).supported.takeWhile
      (fun n => n ≠ DLO_INVALID_MODE)).length < DLO_MODE_DATA_NUM := by
  refine ⟨by decide, by decide, by decide⟩

/-- Claim C6 (amended: `use_default_modes` leaves no sentinel — it fills all
35 slots with valid catalogue indices; the sentinel-termination invariant
holds after every EDID build).  After `use_default_modes` every entry of
`dev.supported` is a valid catalogue index; after every build of the
supported list from a parsed EDID (on a device whose supported array has its
structural length 35), `dev.supported` is terminated by an `INVALID_MODE`
sentinel within its length `DLO_MODE_DATA_NUM`, and every entry before the
first sentinel is a valid catalogue index. -/
theorem claim_C6_amended :
    (∀ dev : Device, ∀ n ∈ (use_default_modes dev).supported, n < DLO_MODE_DATA_NUM) ∧
    (∀ (dev : Device) (edid : EdidFormat),
      dev.supported.length = DLO_MODE_DATA_NUM →
      edid.timings.length = 4 →
      (((lookup_edid_modes dev edid).2.supported.takeWhile
          (fun n => n ≠ DLO_INVALID_MODE)).length < DLO_MODE_DATA_NUM ∧
       ∀ n ∈ (lookup_edid_modes dev edid).2.supported.takeWhile
          (fun n => n ≠ DLO_INVALID_MODE), n < DLO_MODE_DATA_NUM)) := by
  have h35 : DLO_MODE_DATA_NUM = 35 := rfl
  constructor
  · intro dev n hn
    unfold use_default_modes at hn
    dsimp only at hn
    exact List.mem_range.mp hn
  · intro dev edid hlen htlen
    unfold lookup_edid_modes
    dsimp only
    have hconst : ∀ tt ∈ est_timings, tt.width ≠ 0 → tt.refresh ≠ 0 := by decide
    have hestlen : (est_timings.filter (fun tt =>
        decide (tt.width ≠ 0) && catHit tt.width tt.height tt.refresh)).length = 11 := by
      decide
    obtain ⟨A1, B1, p1, p2, p3, p4, p5, p6⟩ :=
      est_fold_inv est_timings ({ dev with native := modeZero }, 0) [] dev.supported
        hconst (by simp) rfl (by simpa using hlen) (by simp)
        (by rw [hestlen]; omega)
    rw [hestlen] at p6
    obtain ⟨A2, B2, q1, q2, q3, q4, q5, q6⟩ :=
      desc_fold_inv edid.timings
        (est_timings.foldl estStep ({ dev with native := modeZero }, 0)) A1 B1
        p1 p2 p3 p4 (by rw [htlen]; omega)
    rw [htlen] at q6
    have hidx : (edid.timings.foldl descStep
        (est_timings.foldl estStep ({ dev with native := modeZero }, 0))).2 ≤ 31 := by
      omega
    have hB2 : B2.length = DLO_MODE_DATA_NUM -
        (edid.timings.foldl descStep
          (est_timings.foldl estStep ({ dev with native := modeZero }, 0))).2 := by
      omega
    obtain ⟨f1, _⟩ := fill_fold
      (DLO_MODE_DATA_NUM - 1 -
        (edid.timings.foldl descStep
          (est_timings.foldl estStep ({ dev with native := modeZero }, 0))).2)
      (edid.timings.foldl descStep
        (est_timings.foldl estStep ({ dev with native := modeZero }, 0))).1
      (edid.timings.foldl descStep
        (est_timings.foldl estStep ({ dev with native := modeZero }, 0))).2
      A2 B2 q1 q2 (by omega)
    obtain ⟨m, hm⟩ : ∃ m, DLO_MODE_DATA_NUM - 1 -
        (edid.timings.foldl descStep
          (est_timings.foldl estStep ({ dev with native := modeZero }, 0))).2 = m + 1 :=
      ⟨DLO_MODE_DATA_NUM - 2 -
        (edid.timings.foldl descStep
          (est_timings.foldl estStep ({ dev with native := modeZero }, 0))).2, by omega⟩
    rw [hm, List.replicate_succ] at f1
    have f2 : ((List.range'
        (edid.timings.foldl descStep
          (est_timings.foldl estStep ({ dev with native := modeZero }, 0))).2 (m + 1)).foldl
          fillStep
          (edid.timings.foldl descStep
            (est_timings.foldl estStep ({ dev with native := modeZero }, 0))).1).supported =
        A2 ++ DLO_INVALID_MODE ::
          (List.replicate m DLO_INVALID_MODE ++ B2.drop (m + 1)) := by
      rw [f1]
      simp [List.append_assoc]
    have hval : ∀ n ∈ A2, n ≠ DLO_INVALID_MODE := by
      intro n hn
      have := q4 n hn
      have hI : DLO_INVALID_MODE = 4294967295 := rfl
      omega
    rw [hm, f2, takeWhile_prefix_invalid A2 _ hval]
    constructor
    · omega
    · exact q4

set_option maxRecDepth 400000 in
/-- Witness for claim C6 (amended): catalogue index 34 sits in the default
supported list, and the EDID build of the `edidEst20` block on a
default-initialised device yields a sentinel-terminated supported list of
valid catalogue indices. -/
theorem claim_C6_amended_witness :
    (34 < DLO_MODE_DATA_NUM) ∧
    (((lookup_edid_modes (use_default_modes devBlank)
        (parseEdidRecord edidEst20)).2.supported.takeWhile
          (fun n => n ≠ DLO_INVALID_MODE)).length < DLO_MODE_DATA_NUM ∧
     ∀ n ∈ (lookup_edid_modes (use_default_modes devBlank)
        (parseEdidRecord edidEst20)).2.supported.takeWhile
          (fun n => n ≠ DLO_INVALID_MODE), n < DLO_MODE_DATA_NUM) :=
  ⟨claim_C6_amended.1 (use_default_modes devBlank) 34 (by decide),
   claim_C6_amended.2 (use_default_modes devBlank) (parseEdidRecord edidEst20)
     (by decide) (by decide)⟩
